import Mathlib

/-!
# Verification of the tavily CLI rendering and request-building layer

Shallow embedding of `tavily_cli.py`.  Decoded API responses are modelled as a
`Json` tree (numeric scalars are modelled as integers: floating-point
formatting precision is outside the embedding).  Each renderer method of
`TavilyCLI` becomes a function `String → Json → Option (List String)`: the
list collects, in order, the text passed to each `click.echo`/`click.secho`
call (color styling is cosmetic and dropped), and `none` models a raised
Python exception (attribute/type errors on ill-typed field values).
Python strings are modelled by Lean `String` (a list of unicode scalar
values); `s[:n]` is `pyTake`, `len(s)` is `pyLen`.
-/

/-- A decoded JSON value, as produced by `response.json()` / the SDK client.
Objects keep their fields as an ordered association list, matching Python
dict insertion order.  Numbers are modelled as integers. -/
inductive Json where
  | null
  | bool (b : Bool)
  | num (n : Int)
  | str (s : String)
  | arr (items : List Json)
  | obj (fields : List (String × Json))

/-- First-match lookup in an object's field list (Python dict access; dict
keys are unique in real responses, so first match is faithful). -/
def lookupField : List (String × Json) → String → Option Json
  | [], _ => none
  | (k', v) :: rest, k => if k' = k then some v else lookupField rest k

/-- Python truthiness of a decoded JSON value (`if value:`). -/
def Json.truthy : Json → Bool
  | .null => false
  | .bool b => b
  | .num n => n != 0
  | .str s => s != ""
  | .arr xs => !xs.isEmpty
  | .obj kvs => !kvs.isEmpty

/-- Python `value.get(key, default)`: fails (raises) when the receiver is not
a dict. -/
def Json.dictGet : Json → String → Json → Option Json
  | .obj kvs, k, dflt => some ((lookupField kvs k).getD dflt)
  | _, _, _ => none

/-- Python `value[key]` / `key in value` support: the field when the
receiver is a dict and the key is present. -/
def Json.getKey? : Json → String → Option Json
  | .obj kvs, k => lookupField kvs k
  | _, _ => none

/-- Python `isinstance(v, str)` refinement: the string payload. -/
def Json.asStr : Json → Option String
  | .str s => some s
  | _ => none

/-- Refinement to a JSON array (iteration / `len` in the renderers). -/
def Json.asList : Json → Option (List Json)
  | .arr xs => some xs
  | _ => none

/-- Refinement to a JSON object (`.get` receiver). -/
def Json.asObj : Json → Option (List (String × Json))
  | .obj kvs => some kvs
  | _ => none

/-- Python `s[:n]` on a string (slice of the first `n` code points). -/
def pyTake (s : String) (n : Nat) : String := ⟨s.data.take n⟩

/-- Python `len(s)` on a string (number of code points). -/
def pyLen (s : String) : Nat := s.data.length

/-- Decimal digit character, `chr(48 + d)`. -/
def digitChar48 (d : Nat) : Char := Char.ofNat (48 + d)

/-- Decimal digit characters of a natural number, most significant first. -/
def natChars (n : Nat) : List Char :=
  if _h : n < 10 then [digitChar48 n]
  else natChars (n / 10) ++ [digitChar48 (n % 10)]
decreasing_by exact Nat.div_lt_self (by omega) (by omega)

/-- Decimal digit characters of an integer: Python `str(int)`. -/
def intChars : Int → List Char
  | .ofNat n => natChars n
  | .negSucc m => '-' :: natChars (m + 1)

/-- Python single-quoted `repr` of a string (quote escaping inside `repr`
is not modelled; it never reaches any rendered line in a well-typed
response). -/
def pyQuoted (s : String) : String := ⟨Char.ofNat 39 :: s.data ++ [Char.ofNat 39]⟩

mutual

/-- Python `repr()` of a decoded JSON value (used by `str()` on
containers). -/
def pyRepr : Json → String
  | .null => "None"
  | .bool true => "True"
  | .bool false => "False"
  | .num n => ⟨intChars n⟩
  | .str s => pyQuoted s
  | .arr xs => "[" ++ pyReprItems xs ++ "]"
  | .obj kvs => "\x7b" ++ pyReprFields kvs ++ "\x7d"

/-- Comma-separated `repr`s of array items. -/
def pyReprItems : List Json → String
  | [] => ""
  | [x] => pyRepr x
  | x :: y :: rest => pyRepr x ++ ", " ++ pyReprItems (y :: rest)

/-- Comma-separated `repr`s of object fields. -/
def pyReprFields : List (String × Json) → String
  | [] => ""
  | [(k, v)] => pyQuoted k ++ ": " ++ pyRepr v
  | (k, v) :: kv :: rest => pyQuoted k ++ ": " ++ pyRepr v ++ ", " ++ pyReprFields (kv :: rest)

end

/-- Python `str()` as used by f-string interpolation of a decoded value. -/
def pyStr : Json → String
  | .str s => s
  | j => pyRepr j

/-- Python format spec `:.2f` applied to a decoded value.  On the integers
of the model it appends ".00" (`f"{n:.2f}"`); bools are ints in Python;
any other type raises a format error. -/
def fmtF2 : Json → Option String
  | .num n => some (⟨intChars n⟩ ++ ".00")
  | .bool b => some ((if b then "1" else "0") ++ ".00")
  | _ => none

/-! ## `json.dumps(response, indent=2)` -/

/-- Indentation for `json.dumps(..., indent=2)` at nesting depth `d`. -/
def jsonInd (d : Nat) : List Char := List.replicate (2 * d) ' '

/-- Four lowercase hex digit characters of `n` (`"%04x" % n`). -/
def hexChars (n : Nat) : List Char :=
  [hexDigitChar (n / 4096 % 16), hexDigitChar (n / 256 % 16),
   hexDigitChar (n / 16 % 16), hexDigitChar (n % 16)]
where
  hexDigitChar (d : Nat) : Char :=
    if d < 10 then Char.ofNat (48 + d) else Char.ofNat (87 + d)

/-- JSON escape of one character, as `json.dumps` with the default
`ensure_ascii=True` emits it: two-character escapes for the classic control
characters, backslash and quote; `\uXXXX` (with a UTF-16 surrogate pair
above `0xFFFF`) for every other character outside printable ASCII. -/
def escChar (c : Char) : List Char :=
  if c = '"' then ['\\', '"']
  else if c = '\\' then ['\\', '\\']
  else if c = '\n' then ['\\', 'n']
  else if c = '\r' then ['\\', 'r']
  else if c = '\t' then ['\\', 't']
  else if c.toNat = 8 then ['\\', 'b']
  else if c.toNat = 12 then ['\\', 'f']
  else if c.toNat < 32 ∨ 126 < c.toNat then
    if c.toNat < 65536 then '\\' :: 'u' :: hexChars c.toNat
    else
      ('\\' :: 'u' :: hexChars (55296 + (c.toNat - 65536) / 1024)) ++
        ('\\' :: 'u' :: hexChars (56320 + (c.toNat - 65536) % 1024))
  else [c]

/-- JSON escape of a string body. -/
def escBody (s : List Char) : List Char := s.foldr (fun c acc => escChar c ++ acc) []

/-- A JSON string literal: quote, escaped body, quote. -/
def escStr (s : List Char) : List Char := '"' :: (escBody s ++ ['"'])

/-- The keyword literals of JSON. -/
def nullChars : List Char := ['n', 'u', 'l', 'l']

def trueChars : List Char := ['t', 'r', 'u', 'e']

def falseChars : List Char := ['f', 'a', 'l', 's', 'e']

mutual

/-- Characters of `json.dumps(v, indent=2)` when `v` sits at nesting depth
`d` (so its continuation lines are indented by `2*d` spaces). -/
def printJson (d : Nat) : Json → List Char
  | .null => nullChars
  | .bool true => trueChars
  | .bool false => falseChars
  | .num n => intChars n
  | .str s => escStr s.data
  | .arr [] => ['[', ']']
  | .arr (x :: xs) =>
      '[' :: '\n' :: (printItems (d + 1) (x :: xs) ++ '\n' :: (jsonInd d ++ [']']))
  | .obj [] => ['\x7b', '\x7d']
  | .obj (kv :: kvs) =>
      '\x7b' :: '\n' :: (printFields (d + 1) (kv :: kvs) ++ '\n' :: (jsonInd d ++ ['\x7d']))

/-- Array items, one per line, separated by ",\n", each indented by `d`. -/
def printItems (d : Nat) : List Json → List Char
  | [] => []
  | x :: xs =>
      jsonInd d ++ (printJson d x ++ (if xs.isEmpty then [] else [',', '\n']) ++ printItems d xs)

/-- Object fields, one per line: `"key": value`, separated by ",\n". -/
def printFields (d : Nat) : List (String × Json) → List Char
  | [] => []
  | (k, v) :: kvs =>
      jsonInd d ++ (escStr k.data ++ ':' :: ' ' :: (printJson d v ++
        (if kvs.isEmpty then [] else [',', '\n']) ++ printFields d kvs))

end

/-- `json.dumps(v, indent=2)`. -/
def dumps (v : Json) : String := ⟨printJson 0 v⟩

/-! ## A JSON reader (`json.loads`), to state the round-trip property -/

/-- JSON whitespace. -/
def isWs (c : Char) : Bool := c = ' ' ∨ c = '\n' ∨ c = '\t' ∨ c = '\r'

/-- Skip leading whitespace. -/
def skipWs : List Char → List Char
  | [] => []
  | c :: rest => if isWs c then skipWs rest else c :: rest

/-- Does the list start with this character? -/
def headIs : List Char → Char → Bool
  | [], _ => false
  | c :: _, x => c = x

/-- Value of a hex digit character. -/
def hexVal? (c : Char) : Option Nat :=
  if 48 ≤ c.toNat ∧ c.toNat ≤ 57 then some (c.toNat - 48)
  else if 97 ≤ c.toNat ∧ c.toNat ≤ 102 then some (c.toNat - 87)
  else if 65 ≤ c.toNat ∧ c.toNat ≤ 70 then some (c.toNat - 55)
  else none

/-- A character from its code point, when valid. -/
def charFromNat? (n : Nat) : Option Char :=
  if h : n.isValidChar then some (Char.ofNatAux n h) else none

/-- Value of a single-character escape code. -/
def escCode? (e : Char) : Option Char :=
  if e = '"' then some '"'
  else if e = '\\' then some '\\'
  else if e = '/' then some '/'
  else if e = 'n' then some '\n'
  else if e = 'r' then some '\r'
  else if e = 't' then some '\t'
  else if e = 'b' then some (Char.ofNat 8)
  else if e = 'f' then some (Char.ofNat 12)
  else none

/-- Value of a decimal digit character. -/
def digVal? (c : Char) : Option Nat :=
  if 48 ≤ c.toNat ∧ c.toNat ≤ 57 then some (c.toNat - 48) else none

/-- Greedily read decimal digits onto an accumulator. -/
def parseDigits (acc : Nat) : List Char → Nat × List Char
  | [] => (acc, [])
  | c :: rest =>
    match digVal? c with
    | some d => parseDigits (acc * 10 + d) rest
    | none => (acc, c :: rest)

/-- Value of four hex digits, when all four are hex digits. -/
def hex4 (a b c2 d2 : Char) : Option Nat :=
  match hexVal? a, hexVal? b, hexVal? c2, hexVal? d2 with
  | some x, some y, some z, some w => some (((x * 16 + y) * 16 + z) * 16 + w)
  | _, _, _, _ => none

/-- Decode the low-surrogate half `\uXXXX` following a high surrogate with
value `n`. -/
def parseULow (n : Nat) (rest3 : List Char) : Option (Char × List Char) :=
  match rest3 with
  | e1 :: e2 :: a2 :: b2 :: c3 :: d3 :: rest5 =>
    if e1 = '\\' ∧ e2 = 'u' then
      match hex4 a2 b2 c3 d3 with
      | some m =>
        if 56320 ≤ m ∧ m ≤ 57343 then
          match charFromNat? (65536 + (n - 55296) * 1024 + (m - 56320)) with
          | some ch => some (ch, rest5)
          | none => none
        else none
      | none => none
    else none
  | _ => none

/-- Decode a `\uXXXX` escape after the `u`, including a following low
surrogate when the first code unit is a high surrogate. -/
def parseU (rest2 : List Char) : Option (Char × List Char) :=
  match rest2 with
  | a :: b :: c2 :: d2 :: rest3 =>
    match hex4 a b c2 d2 with
    | some n =>
      if 55296 ≤ n ∧ n ≤ 56319 then parseULow n rest3
      else
        match charFromNat? n with
        | some ch => some (ch, rest3)
        | none => none
    | none => none
  | _ => none

/-- Decode one escape sequence after the backslash. -/
def parseEscape (rest : List Char) : Option (Char × List Char) :=
  match rest with
  | [] => none
  | e :: rest2 =>
    if e = 'u' then parseU rest2
    else
      match escCode? e with
      | some ch => some (ch, rest2)
      | none => none

/-- Read a JSON string body up to and including the closing quote,
decoding escapes (fuel-indexed; the input length bounds the recursion
depth, one step per decoded character). -/
def parseStrF : Nat → List Char → Option (List Char × List Char)
  | 0, _ => none
  | fuel + 1, s =>
    match s with
    | [] => none
    | c :: rest =>
      if c = '"' then some ([], rest)
      else if c = '\\' then
        match parseEscape rest with
        | some (ch, r3) =>
          match parseStrF fuel r3 with
          | some (cs, r) => some (ch :: cs, r)
          | none => none
        | none => none
      else
        match parseStrF fuel rest with
        | some (cs, r) => some (c :: cs, r)
        | none => none

/-- Read a JSON string body up to and including the closing quote. -/
def parseStr (s : List Char) : Option (List Char × List Char) :=
  parseStrF (s.length + 1) s

mutual

/-- Read one JSON value after optional leading whitespace.  The fuel
argument dominates the nesting structure; `loads` supplies input length
plus one, which always suffices for `dumps` output. -/
def parseVal : Nat → List Char → Option (Json × List Char)
  | 0, _ => none
  | fuel + 1, s =>
    match skipWs s with
    | [] => none
    | c :: rest =>
      if c = 'n' then
        if ['u', 'l', 'l'].isPrefixOf rest then some (.null, rest.drop 3) else none
      else if c = 't' then
        if ['r', 'u', 'e'].isPrefixOf rest then some (.bool true, rest.drop 3) else none
      else if c = 'f' then
        if ['a', 'l', 's', 'e'].isPrefixOf rest then some (.bool false, rest.drop 4) else none
      else if c = '"' then
        match parseStr rest with
        | some (cs, r) => some (.str ⟨cs⟩, r)
        | none => none
      else if c = '-' then
        match rest with
        | d :: rest2 =>
          match digVal? d with
          | some _ =>
            match parseDigits 0 (d :: rest2) with
            | (n, r) => some (.num (-(n : Int)), r)
          | none => none
        | [] => none
      else if c = '[' then
        if headIs (skipWs rest) ']' then some (.arr [], (skipWs rest).tail)
        else
          match parseItems fuel rest with
          | some (xs, r) => some (.arr xs, r)
          | none => none
      else if c = '\x7b' then
        if headIs (skipWs rest) '\x7d' then some (.obj [], (skipWs rest).tail)
        else
          match parseFields fuel rest with
          | some (kvs, r) => some (.obj kvs, r)
          | none => none
      else
        match digVal? c with
        | some _ =>
          match parseDigits 0 (c :: rest) with
          | (n, r) => some (.num (n : Int), r)
        | none => none
termination_by fuel _ => (fuel, 0)

/-- Read the items of a non-empty array, including the closing bracket. -/
def parseItems : Nat → List Char → Option (List Json × List Char)
  | 0, _ => none
  | fuel + 1, s =>
    match parseVal (fuel + 1) s with
    | none => none
    | some (v, r) =>
      let r2 := skipWs r
      if headIs r2 ',' then
        match parseItems fuel r2.tail with
        | some (xs, r3) => some (v :: xs, r3)
        | none => none
      else if headIs r2 ']' then some ([v], r2.tail)
      else none
termination_by fuel _ => (fuel, 1)

/-- Read the fields of a non-empty object, including the closing brace. -/
def parseFields : Nat → List Char → Option (List (String × Json) × List Char)
  | 0, _ => none
  | fuel + 1, s =>
    let s1 := skipWs s
    if headIs s1 '"' then
      match parseStr s1.tail with
      | none => none
      | some (k, r) =>
        let r1 := skipWs r
        if headIs r1 ':' then
          match parseVal (fuel + 1) r1.tail with
          | none => none
          | some (v, r2) =>
            let r3 := skipWs r2
            if headIs r3 ',' then
              match parseFields fuel r3.tail with
              | some (kvs, r4) => some ((⟨k⟩, v) :: kvs, r4)
              | none => none
            else if headIs r3 '\x7d' then some ([(⟨k⟩, v)], r3.tail)
            else none
        else none
    else none
termination_by fuel _ => (fuel, 1)

end

/-- `json.loads`: read one value, then only trailing whitespace. -/
def loads (s : String) : Option Json :=
  match parseVal (s.data.length + 1) s.data with
  | some (v, r) => if skipWs r = [] then some v else none
  | none => none

/-! ## Renderers (`TavilyCLI.display_*`)

Each function returns the list of strings passed to `click.echo` /
`click.secho`, in order, or `none` when the Python code would raise. -/

/-- `enumerate(results, i)`. -/
def enumFrom (i : Nat) : List Json → List (Nat × Json)
  | [] => []
  | x :: xs => (i, x) :: enumFrom (i + 1) xs

/-- Sequence an `Option`-producing line generator over a list,
concatenating the generated lines. -/
def flatMapM (f : α → Option (List String)) : List α → Option (List String)
  | [] => some []
  | x :: xs => do
    let a ← f x
    let b ← flatMapM f xs
    pure (a ++ b)

/-- Sequence an `Option`-producing single-line generator over a list. -/
def mapM1 (f : α → Option String) : List α → Option (List String)
  | [] => some []
  | x :: xs => do
    let a ← f x
    let b ← mapM1 f xs
    pure (a :: b)

/-- Search result content in text mode:
`content[:200] + ('...' if len(content) > 200 else '')`. -/
def searchPreview (content : String) : String :=
  pyTake content 200 ++ (if 200 < pyLen content then "..." else "")

/-- One enumerated search result (`display_search_results` loop body). -/
def searchItem (is_md : Bool) (i : Nat) (result : Json) : Option (List String) := do
  let title ← result.dictGet "title" (.str "No title")
  let url ← result.dictGet "url" (.str "")
  let content ← result.dictGet "content" (.str "")
  let score ← result.dictGet "score" (.num 0)
  let sc ← fmtF2 score
  if is_md then
    pure ["### " ++ toString i ++ ". [" ++ pyStr title ++ "](" ++ pyStr url ++ ")",
          "*Score: " ++ sc ++ "*\n",
          pyStr content ++ "\n"]
  else do
    let c ← content.asStr
    pure [toString i ++ ". " ++ pyStr title,
          "   " ++ pyStr url,
          "   Score: " ++ sc,
          "   " ++ searchPreview c ++ "\n"]

/-- One image bullet (search images section). -/
def imgLine (is_md : Bool) (img : Json) : String :=
  match img with
  | .obj kvs =>
    if is_md then
      "- ![" ++ pyStr ((lookupField kvs "description").getD (.str "")) ++ "](" ++
        pyStr ((lookupField kvs "url").getD (.str "")) ++ ")"
    else
      "  - " ++ pyStr ((lookupField kvs "url").getD (.str "")) ++ " - " ++
        pyStr ((lookupField kvs "description").getD (.str ""))
  | _ => (if is_md then "- " else "  - ") ++ pyStr img

/-- Trailing response-time lines: emitted iff `"response_time" in response`. -/
def responseTimeLines (is_md : Bool) (response : Json) : Option (List String) :=
  match response.getKey? "response_time" with
  | some rt => do
      let f ← fmtF2 rt
      pure [if is_md then "\n*Response time: " ++ f ++ "s*"
            else "\nResponse time: " ++ f ++ "s"]
  | none => pure []

/-- `display_search_results`. -/
def display_search_results (output_format : String) (response : Json) :
    Option (List String) := do
  if output_format = "json" then
    pure [dumps response]
  else
    let is_md := output_format = "markdown"
    let query ← response.dictGet "query" (.str "")
    let headerLines := if is_md then ["# Search: " ++ pyStr query ++ "\n"]
      else ["Search: " ++ pyStr query ++ "\n"]
    let answerLines :=
      match response.getKey? "answer" with
      | some a =>
        if a.truthy then
          if is_md then ["## Answer\n\n" ++ pyStr a ++ "\n"]
          else ["Answer:", pyStr a ++ "\n"]
        else []
      | none => []
    let resultsJ ← response.dictGet "results" (.arr [])
    let results ← resultsJ.asList
    let resultsHeader := if is_md then "## Results (" ++ toString results.length ++ ")\n"
      else "Results (" ++ toString results.length ++ "):\n"
    let itemLines ← flatMapM (fun p => searchItem is_md p.1 p.2) (enumFrom 1 results)
    let imagesJ ← response.dictGet "images" (.arr [])
    let imageLines ←
      if imagesJ.truthy then do
        let images ← imagesJ.asList
        let header := if is_md then "## Images (" ++ toString images.length ++ ")\n"
          else "Images (" ++ toString images.length ++ "):"
        pure (header :: images.map (imgLine is_md))
      else pure []
    let rtLines ← responseTimeLines is_md response
    pure (headerLines ++ answerLines ++ [resultsHeader] ++ itemLines ++ imageLines ++ rtLines)

/-- Extract raw content in text mode: `content[:2000]`, a trailing count of
omitted characters iff over the threshold, then the dashed separator. -/
def extractContentText (c : String) : List String :=
  [pyTake c 2000] ++
    (if 2000 < pyLen c then
      ["\n... (" ++ toString (pyLen c - 2000) ++ " more characters)"] else []) ++
    ["\n" ++ String.mk (List.replicate 60 '-') ++ "\n"]

/-- One enumerated extract result (`display_extract_results` loop body). -/
def extractItem (is_md : Bool) (i : Nat) (result : Json) : Option (List String) := do
  let url ← result.dictGet "url" (.str "")
  let content ← result.dictGet "raw_content" (.str "")
  if is_md then
    pure ["## " ++ toString i ++ ". " ++ pyStr url ++ "\n", pyStr content ++ "\n", "---\n"]
  else do
    let c ← content.asStr
    pure ([toString i ++ ". " ++ pyStr url ++ "\n"] ++ extractContentText c)

/-- One failed-URL bullet (`display_extract_results` failed section). -/
def failedLine (is_md : Bool) (f : Json) : Option String :=
  match f with
  | .obj kvs =>
    some ((if is_md then "- " else "  - ") ++
      pyStr ((lookupField kvs "url").getD (.str "")) ++ ": " ++
      pyStr ((lookupField kvs "error").getD (.str "Unknown error")))
  | _ => none

/-- `display_extract_results`. -/
def display_extract_results (output_format : String) (response : Json) :
    Option (List String) := do
  if output_format = "json" then
    pure [dumps response]
  else
    let is_md := output_format = "markdown"
    let headerLines := if is_md then ["# Extracted Content\n"] else ["Extracted Content\n"]
    let resultsJ ← response.dictGet "results" (.arr [])
    let results ← resultsJ.asList
    let itemLines ← flatMapM (fun p => extractItem is_md p.1 p.2) (enumFrom 1 results)
    let failedJ ← response.dictGet "failed_results" (.arr [])
    let failedLines ←
      if failedJ.truthy then do
        let failed ← failedJ.asList
        let flines ← mapM1 (failedLine is_md) failed
        pure ((if is_md then "## Failed URLs\n" else "Failed URLs:") :: flines)
      else pure []
    let rtLines ← responseTimeLines is_md response
    pure (headerLines ++ itemLines ++ failedLines ++ rtLines)

/-- Crawl page preview: `content[:t] if content else ""` then an ellipsis
iff `len(content) > t` (t = 500 in markdown mode, 300 in text mode). -/
def crawlPreview (t : Nat) (c : String) : String :=
  (if c = "" then "" else pyTake c t) ++ (if t < pyLen c then "..." else "")

/-- One enumerated crawl result (`display_crawl_results` loop body). -/
def crawlItem (is_md : Bool) (i : Nat) (result : Json) : Option (List String) := do
  let url ← result.dictGet "url" (.str "")
  let content ← result.dictGet "raw_content" (.str "")
  let c ← content.asStr
  if is_md then
    pure ["### " ++ toString i ++ ". " ++ pyStr url ++ "\n", crawlPreview 500 c ++ "\n"]
  else
    pure [toString i ++ ". " ++ pyStr url, "   " ++ crawlPreview 300 c ++ "\n"]

/-- `display_crawl_results`. -/
def display_crawl_results (output_format : String) (response : Json) :
    Option (List String) := do
  if output_format = "json" then
    pure [dumps response]
  else
    let is_md := output_format = "markdown"
    let base_url ← response.dictGet "base_url" (.str "")
    let headerLines := if is_md then ["# Crawl Results: " ++ pyStr base_url ++ "\n"]
      else ["Crawl Results: " ++ pyStr base_url ++ "\n"]
    let resultsJ ← response.dictGet "results" (.arr [])
    let results ← resultsJ.asList
    let resultsHeader := if is_md then "## Pages Crawled (" ++ toString results.length ++ ")\n"
      else "Pages Crawled (" ++ toString results.length ++ "):\n"
    let itemLines ← flatMapM (fun p => crawlItem is_md p.1 p.2) (enumFrom 1 results)
    let rtLines ← responseTimeLines is_md response
    pure (headerLines ++ [resultsHeader] ++ itemLines ++ rtLines)

/-- `display_map_results`. -/
def display_map_results (output_format : String) (response : Json) :
    Option (List String) := do
  if output_format = "json" then
    pure [dumps response]
  else
    let is_md := output_format = "markdown"
    let base_url ← response.dictGet "base_url" (.str "")
    let resultsJ ← response.dictGet "results" (.arr [])
    let results ← resultsJ.asList
    let headerLines := if is_md then
        ["# Site Map: " ++ pyStr base_url ++ "\n",
         "## URLs Found (" ++ toString results.length ++ ")\n"]
      else
        ["Site Map: " ++ pyStr base_url ++ "\n",
         "URLs Found (" ++ toString results.length ++ "):\n"]
    let urlLines := results.map (fun url =>
      if is_md then "- " ++ pyStr url else "  " ++ pyStr url)
    let rtLines ← responseTimeLines is_md response
    pure (headerLines ++ urlLines ++ rtLines)

/-- `display_usage`. -/
def display_usage (output_format : String) (response : Json) :
    Option (List String) := do
  if output_format = "json" then
    pure [dumps response]
  else
    let is_md := output_format = "markdown"
    let keyInfo ← response.dictGet "key" (.obj [])
    let accountInfo ← response.dictGet "account" (.obj [])
    let kkvs ← keyInfo.asObj
    let akvs ← accountInfo.asObj
    let limit := (lookupField kkvs "limit").getD .null
    pure [if is_md then "# API Usage\n" else "API Usage\n",
          if is_md then "## API Key" else "API Key:",
          (if is_md then "- **Usage:** " else "  Usage: ") ++
            pyStr ((lookupField kkvs "usage").getD (.num 0)),
          (if is_md then "- **Limit:** " else "  Limit: ") ++
            (if limit.truthy then pyStr limit else "Unlimited") ++ "\n",
          if is_md then "## Account" else "Account:",
          (if is_md then "- **Plan:** " else "  Plan: ") ++
            pyStr ((lookupField akvs "current_plan").getD (.str "Unknown")),
          (if is_md then "- **Plan Usage:** " else "  Plan Usage: ") ++
            pyStr ((lookupField akvs "plan_usage").getD (.num 0)) ++ " / " ++
            pyStr ((lookupField akvs "plan_limit").getD (.num 0)),
          (if is_md then "- **PayGo Usage:** " else "  PayGo Usage: ") ++
            pyStr ((lookupField akvs "paygo_usage").getD (.num 0)) ++ " / " ++
            pyStr ((lookupField akvs "paygo_limit").getD (.num 0))]

/-! ## `parse_list` and the command layer -/

/-- Python `str.split(sep)` for a one-character separator. -/
def pySplit (sep : Char) : List Char → List (List Char)
  | [] => [[]]
  | c :: rest =>
    if c = sep then [] :: pySplit sep rest
    else
      match pySplit sep rest with
      | [] => [[c]]
      | g :: gs => (c :: g) :: gs

/-- Python `str.strip()`: drop leading and trailing whitespace. -/
def pyStrip (s : List Char) : List Char :=
  ((s.dropWhile Char.isWhitespace).reverse.dropWhile Char.isWhitespace).reverse

/-- `parse_list`: `None` for an absent or empty value, otherwise the
stripped, non-empty comma-separated elements in order
(`[x.strip() for x in value.split(",") if x.strip()]`). -/
def parse_list (value : Option String) : Option (List String) :=
  match value with
  | none => none
  | some v =>
    if v = "" then none
    else some ((((pySplit ',' v.data).map pyStrip).filter (fun x => !x.isEmpty)).map
      (fun x => (⟨x⟩ : String)))

/-- Comma-join of a parsed list (the inverse direction used to state
idempotence of `parse_list`). -/
def commaJoinChars : List (List Char) → List Char
  | [] => []
  | [x] => x
  | x :: y :: rest => x ++ ',' :: commaJoinChars (y :: rest)

/-- Comma-join of a list of strings. -/
def commaJoin (l : List String) : String := ⟨commaJoinChars (l.map String.data)⟩

/-- Parsed options of the `search` command, after click option parsing.
`include_answer` / `include_raw` are `none` when the flag is absent. -/
structure SearchOpts where
  query : String
  depth : String
  topic : String
  max_results : Int
  time_range : Option String
  include_answer : Option String
  include_raw : Option String
  include_images : Bool
  include_domains : Option (List String)
  exclude_domains : Option (List String)
  country : Option String

/-- `if opt: kwargs[key] = f(opt)` for a string-valued option: the entry is
added only when the option is truthy (present and non-empty). -/
def strOptEntry (k : String) (v : Option String) (f : String → Json) :
    List (String × Json) :=
  match v with
  | some s => if s = "" then [] else [(k, f s)]
  | none => []

/-- `if opt: kwargs[key] = opt` for a list-valued option: the entry is
added only when the option is truthy (present and non-empty). -/
def listOptEntry (k : String) (v : Option (List String)) : List (String × Json) :=
  match v with
  | some l => if l.isEmpty then [] else [(k, .arr (l.map .str))]
  | none => []

/-- `if opt: kwargs[key] = opt` for a numeric option. -/
def numOptEntry (k : String) (v : Option Int) : List (String × Json) :=
  match v with
  | some t => if t = 0 then [] else [(k, .num t)]
  | none => []

/-- The sentinel mapping of the `--include-answer` / `--include-raw` flag
values: `include_answer if include_answer not in ("true", "True") else True`. -/
def flagValue (v : String) : Json :=
  if v = "true" ∨ v = "True" then .bool true else .str v

/-- The `kwargs` request object built by the `search` command body
(lines 348-367 of the source): base parameters, then each optional
parameter added only when its option value is truthy. -/
def searchKwargs (o : SearchOpts) : List (String × Json) :=
  [("query", .str o.query), ("search_depth", .str o.depth), ("topic", .str o.topic),
   ("max_results", .num o.max_results), ("include_images", .bool o.include_images)] ++
  strOptEntry "time_range" o.time_range .str ++
  strOptEntry "include_answer" o.include_answer flagValue ++
  strOptEntry "include_raw_content" o.include_raw flagValue ++
  listOptEntry "include_domains" o.include_domains ++
  listOptEntry "exclude_domains" o.exclude_domains ++
  strOptEntry "country" o.country .str

/-- Parsed options of the `extract` command relevant to validation. -/
structure ExtractOpts where
  urls : List String
  depth : String
  output_format : String
  include_images : Bool
  timeout : Option Int

/-- Parsed options of the `crawl` / `map` commands relevant to validation. -/
structure CrawlOpts where
  url : String
  max_depth : Int
  max_breadth : Int
  limit : Int
  timeout : Option Int

/-- Modelled from the spec: `click.IntRange(lo, hi)` / `click.FloatRange`
accept exactly the values between the bounds; out-of-range input fails
option validation with a usage error (exit code 2) before the command body
runs.  (The range semantics live in the click library, outside this
repository; the bounds themselves are the source's declarations.) -/
def rangeOk (lo hi n : Int) : Bool := lo ≤ n ∧ n ≤ hi

/-- Range acceptance for an optional (float-valued) option: absent options
are not validated. -/
def timeoutOk (lo hi : Int) : Option Int → Bool
  | some t => rangeOk lo hi t
  | none => true

/-- Outcome of one CLI invocation, up to the point of the (single) network
call: either option validation fails with a usage error and no request is
ever built, or the command body builds its request object. -/
inductive CmdOutcome where
  | usageError (exitCode : Nat)
  | request (kwargs : List (String × Json))

/-- Modelled from the spec: number of network calls an outcome performs
(a built request is sent exactly once; a usage error sends nothing). -/
def networkCalls : CmdOutcome → Nat
  | .usageError _ => 0
  | .request _ => 1

/-- The `search` command: validate `--max-results` against
`click.IntRange(1, 20)`, then build the request. -/
def runSearch (o : SearchOpts) : CmdOutcome :=
  if rangeOk 1 20 o.max_results then .request (searchKwargs o) else .usageError 2

/-- The `extract` command: validate `--timeout` against
`click.FloatRange(1, 60)` when supplied, then build the request
(lines 393-400 of the source). -/
def runExtract (o : ExtractOpts) : CmdOutcome :=
  if timeoutOk 1 60 o.timeout then
    .request ([("urls", .arr (o.urls.map .str)), ("extract_depth", .str o.depth),
      ("include_images", .bool o.include_images)] ++ numOptEntry "timeout" o.timeout)
  else .usageError 2

/-- The `crawl` and `map` commands: validate `--max-depth` against
`click.IntRange(1, 5)` and `--timeout` against `click.FloatRange(10, 150)`
when supplied, then build the request (only the validated parameters are
modelled in the request object). -/
def runCrawl (o : CrawlOpts) : CmdOutcome :=
  if rangeOk 1 5 o.max_depth && timeoutOk 10 150 o.timeout then
    .request ([("url", .str o.url), ("max_depth", .num o.max_depth),
      ("max_breadth", .num o.max_breadth), ("limit", .num o.limit)] ++
      numOptEntry "timeout" o.timeout)
  else .usageError 2

/-! ## Response constructors used to quantify over field presence -/

/-- An optional object field: present in the field list iff the value is. -/
def optField (k : String) : Option Json → List (String × Json)
  | some j => [(k, j)]
  | none => []

/-- A search result with any subset of its fields present (present fields
carry the type the schema gives them). -/
def mkSearchResult (title url content : Option String) (score : Option Int) : Json :=
  .obj (optField "title" (title.map .str) ++ optField "url" (url.map .str) ++
    optField "content" (content.map .str) ++ optField "score" (score.map .num))

/-- A search Response with any subset of its optional fields present. -/
def mkSearchResponse (query answer : Option String) (results : Option (List Json))
    (images : Option (List Json)) (rt : Option Int) : Json :=
  .obj (optField "query" (query.map .str) ++ optField "answer" (answer.map .str) ++
    optField "results" (results.map .arr) ++ optField "images" (images.map .arr) ++
    optField "response_time" (rt.map .num))

/-- An extract / crawl result with any subset of its fields present. -/
def mkContentResult (url raw_content : Option String) : Json :=
  .obj (optField "url" (url.map .str) ++ optField "raw_content" (raw_content.map .str))

/-- A failed-extraction entry with any subset of its fields present. -/
def mkFailedResult (url error : Option String) : Json :=
  .obj (optField "url" (url.map .str) ++ optField "error" (error.map .str))

/-- An extract Response with any subset of its optional fields present. -/
def mkExtractResponse (results : Option (List Json)) (failed : Option (List Json))
    (rt : Option Int) : Json :=
  .obj (optField "results" (results.map .arr) ++
    optField "failed_results" (failed.map .arr) ++ optField "response_time" (rt.map .num))

/-- A crawl / map Response with any subset of its optional fields present. -/
def mkCrawlResponse (base_url : Option String) (results : Option (List Json))
    (rt : Option Int) : Json :=
  .obj (optField "base_url" (base_url.map .str) ++ optField "results" (results.map .arr) ++
    optField "response_time" (rt.map .num))

/-- A usage Response: the `key` / `account` sections, each either absent or
an object with an arbitrary field list. -/
def mkUsageResponse (kf af : Option (List (String × Json))) : Json :=
  .obj (optField "key" (kf.map .obj) ++ optField "account" (af.map .obj))

/-! ## Auxiliary definitions for the statements and proofs -/

/-- The map / crawl `map` command: same declared ranges as `crawl`
(lines 470-481 of the source). -/
def runMap (o : CrawlOpts) : CmdOutcome :=
  if rangeOk 1 5 o.max_depth && timeoutOk 10 150 o.timeout then
    .request ([("url", .str o.url), ("max_depth", .num o.max_depth),
      ("max_breadth", .num o.max_breadth), ("limit", .num o.limit)] ++
      numOptEntry "timeout" o.timeout)
  else .usageError 2

/-- Number of decimal digits printed for a natural number. -/
def numDigits (n : Nat) : Nat :=
  if _h : n < 10 then 1 else numDigits (n / 10) + 1
decreasing_by exact Nat.div_lt_self (by omega) (by omega)

/-- The digit value of the head character, if any. -/
def headDigit? : List Char → Option Nat
  | [] => none
  | c :: _ => digVal? c

/-- Side condition for reading a printed value back: a printed number must
not be followed immediately by another digit. -/
def numStopOk : Json → List Char → Prop
  | .num _, rest => headDigit? rest = none
  | _, _ => True

/-- An all-whitespace prefix. -/
def wsPre (pre : List Char) : Prop := ∀ c ∈ pre, isWs c = true

/-- The trailing response-time segment a renderer appends in text or
markdown mode: one line iff the field is present. -/
def rtSegment (is_md : Bool) (rt : Option Int) : List String :=
  match rt with
  | some t =>
      [if is_md then "\n*Response time: " ++ (⟨intChars t⟩ ++ ".00") ++ "s*"
       else "\nResponse time: " ++ (⟨intChars t⟩ ++ ".00") ++ "s"]
  | none => []

/-! # Theorems -/

/-! ## Lookup helpers -/

theorem lookupField_eq_none_of_ne {l : List (String × Json)} {k : String}
    (h : ∀ p ∈ l, p.1 ≠ k) : lookupField l k = none := by
  induction l with
  | nil => rfl
  | cons p rest ih =>
    obtain ⟨k', v⟩ := p
    have hk : k' ≠ k := h (k', v) (by simp)
    simp only [lookupField, if_neg hk]
    exact ih fun q hq => h q (List.mem_cons_of_mem _ hq)

theorem lookupField_append_of_ne {l₁ l₂ : List (String × Json)} {k : String}
    (h : ∀ p ∈ l₁, p.1 ≠ k) : lookupField (l₁ ++ l₂) k = lookupField l₂ k := by
  induction l₁ with
  | nil => rfl
  | cons p rest ih =>
    obtain ⟨k', v⟩ := p
    have hk : k' ≠ k := h (k', v) (by simp)
    simp only [List.cons_append, lookupField, if_neg hk]
    exact ih fun q hq => h q (List.mem_cons_of_mem _ hq)

theorem strOptEntry_keys {k : String} {v : Option String} {f : String → Json} :
    ∀ p ∈ strOptEntry k v f, p.1 = k := by
  rcases v with _ | s
  · simp [strOptEntry]
  · by_cases hs : s = "" <;> simp [strOptEntry, hs]

theorem listOptEntry_keys {k : String} {v : Option (List String)} :
    ∀ p ∈ listOptEntry k v, p.1 = k := by
  rcases v with _ | l
  · simp [listOptEntry]
  · by_cases hl : l.isEmpty <;> simp [listOptEntry, hl]

theorem optField_keys {k : String} {v : Option Json} : ∀ p ∈ optField k v, p.1 = k := by
  rcases v with _ | j <;> simp [optField]

theorem lookup_strOptEntry_ne {k k' : String} {v : Option String} {f : String → Json}
    {rest : List (String × Json)} (h : k ≠ k') :
    lookupField (strOptEntry k v f ++ rest) k' = lookupField rest k' :=
  lookupField_append_of_ne fun p hp => by rw [strOptEntry_keys p hp]; exact h

theorem lookup_listOptEntry_ne {k k' : String} {v : Option (List String)}
    {rest : List (String × Json)} (h : k ≠ k') :
    lookupField (listOptEntry k v ++ rest) k' = lookupField rest k' :=
  lookupField_append_of_ne fun p hp => by rw [listOptEntry_keys p hp]; exact h

theorem lookup_optField_ne {k k' : String} {v : Option Json}
    {rest : List (String × Json)} (h : k ≠ k') :
    lookupField (optField k v ++ rest) k' = lookupField rest k' :=
  lookupField_append_of_ne fun p hp => by rw [optField_keys p hp]; exact h

theorem strOptEntry_none (k : String) (f : String → Json) :
    strOptEntry k none f = [] := rfl

theorem strOptEntry_some (k : String) (f : String → Json) {s : String} (hs : s ≠ "") :
    strOptEntry k (some s) f = [(k, f s)] := by simp [strOptEntry, hs]

theorem lookupField_cons_self (k : String) (v : Json) (rest : List (String × Json)) :
    lookupField ((k, v) :: rest) k = some v := by simp [lookupField]

/-! ## C5: include_answer / include_raw flag mapping -/

/-- C5: in the search request builder, an absent `--include-answer` flag
omits the `include_answer` parameter; the named modes "basic"/"advanced"
pass through unchanged; the literal string "true" becomes boolean true.
`--include-raw` follows the same pattern (named modes "markdown"/"text")
for the `include_raw_content` parameter. -/
theorem c5_include_flags (o : SearchOpts) :
    (o.include_answer = none →
      lookupField (searchKwargs o) "include_answer" = none) ∧
    (o.include_answer = some "basic" →
      lookupField (searchKwargs o) "include_answer" = some (.str "basic")) ∧
    (o.include_answer = some "advanced" →
      lookupField (searchKwargs o) "include_answer" = some (.str "advanced")) ∧
    (o.include_answer = some "true" →
      lookupField (searchKwargs o) "include_answer" = some (.bool true)) ∧
    (o.include_raw = none →
      lookupField (searchKwargs o) "include_raw_content" = none) ∧
    (o.include_raw = some "markdown" →
      lookupField (searchKwargs o) "include_raw_content" = some (.str "markdown")) ∧
    (o.include_raw = some "text" →
      lookupField (searchKwargs o) "include_raw_content" = some (.str "text")) ∧
    (o.include_raw = some "true" →
      lookupField (searchKwargs o) "include_raw_content" = some (.bool true)) := by
  have base :
      ∀ k' : String, ¬("query" = k') → ¬("search_depth" = k') → ¬("topic" = k') →
        ¬("max_results" = k') → ¬("include_images" = k') → "time_range" ≠ k' →
        lookupField (searchKwargs o) k' =
          lookupField (strOptEntry "include_answer" o.include_answer flagValue ++
            (strOptEntry "include_raw_content" o.include_raw flagValue ++
              (listOptEntry "include_domains" o.include_domains ++
                (listOptEntry "exclude_domains" o.exclude_domains ++
                  strOptEntry "country" o.country .str)))) k' := by
    intro k' h1 h2 h3 h4 h5 h6
    simp only [searchKwargs, List.cons_append, List.nil_append, List.append_assoc,
      List.append_eq, lookupField, if_neg h1, if_neg h2, if_neg h3, if_neg h4, if_neg h5]
    rw [lookup_strOptEntry_ne h6]
  have tailNoneA :
      lookupField (listOptEntry "include_domains" o.include_domains ++
        (listOptEntry "exclude_domains" o.exclude_domains ++
          strOptEntry "country" o.country .str)) "include_answer" = none := by
    rw [lookup_listOptEntry_ne (by decide), lookup_listOptEntry_ne (by decide)]
    exact lookupField_eq_none_of_ne fun p hp => by rw [strOptEntry_keys p hp]; decide
  have tailNoneR :
      lookupField (listOptEntry "include_domains" o.include_domains ++
        (listOptEntry "exclude_domains" o.exclude_domains ++
          strOptEntry "country" o.country .str)) "include_raw_content" = none := by
    rw [lookup_listOptEntry_ne (by decide), lookup_listOptEntry_ne (by decide)]
    exact lookupField_eq_none_of_ne fun p hp => by rw [strOptEntry_keys p hp]; decide
  have baseA := base "include_answer" (by decide) (by decide) (by decide) (by decide)
    (by decide) (by decide)
  have baseR := base "include_raw_content" (by decide) (by decide) (by decide) (by decide)
    (by decide) (by decide)
  refine ⟨?_, ?_, ?_, ?_, ?_, ?_, ?_, ?_⟩ <;> intro h
  · rw [baseA, h, strOptEntry_none, List.nil_append, lookup_strOptEntry_ne (by decide)]
    exact tailNoneA
  · rw [baseA, h, strOptEntry_some _ _ (by decide), List.cons_append, lookupField_cons_self]
    rw [show flagValue "basic" = Json.str "basic" from by rw [flagValue, if_neg (by decide)]]
  · rw [baseA, h, strOptEntry_some _ _ (by decide), List.cons_append, lookupField_cons_self]
    rw [show flagValue "advanced" = Json.str "advanced" from by
      rw [flagValue, if_neg (by decide)]]
  · rw [baseA, h, strOptEntry_some _ _ (by decide), List.cons_append, lookupField_cons_self]
    rw [show flagValue "true" = Json.bool true from by rw [flagValue, if_pos (by decide)]]
  · rw [baseR, h, lookup_strOptEntry_ne (by decide), strOptEntry_none, List.nil_append]
    exact tailNoneR
  · rw [baseR, lookup_strOptEntry_ne (by decide), h, strOptEntry_some _ _ (by decide),
      List.cons_append, lookupField_cons_self]
    rw [show flagValue "markdown" = Json.str "markdown" from by
      rw [flagValue, if_neg (by decide)]]
  · rw [baseR, lookup_strOptEntry_ne (by decide), h, strOptEntry_some _ _ (by decide),
      List.cons_append, lookupField_cons_self]
    rw [show flagValue "text" = Json.str "text" from by rw [flagValue, if_neg (by decide)]]
  · rw [baseR, lookup_strOptEntry_ne (by decide), h, strOptEntry_some _ _ (by decide),
      List.cons_append, lookupField_cons_self]
    rw [show flagValue "true" = Json.bool true from by rw [flagValue, if_pos (by decide)]]

/-- Witness for C5 at concrete option values. -/
theorem c5_include_flags_witness :
    lookupField
      (searchKwargs ⟨"q", "basic", "general", 5, none, some "true", some "markdown",
        false, none, none, none⟩) "include_answer" = some (.bool true) ∧
    lookupField
      (searchKwargs ⟨"q", "basic", "general", 5, none, some "true", some "markdown",
        false, none, none, none⟩) "include_raw_content" = some (.str "markdown") :=
  ⟨(c5_include_flags _).2.2.2.1 rfl, (c5_include_flags _).2.2.2.2.2.1 rfl⟩

/-! ## C6: numeric range validation -/

/-- C6: every out-of-range numeric option — search `max_results` outside
[1,20], crawl/map `max_depth` outside [1,5], extract `timeout` outside
[1,60], crawl/map `timeout` outside [10,150] — fails option validation
with a usage error (exit code 2, non-zero) before any request object is
built and before any network call (zero network calls are performed). -/
theorem c6_range_validation :
    (∀ o : SearchOpts, ¬(1 ≤ o.max_results ∧ o.max_results ≤ 20) →
      runSearch o = .usageError 2 ∧ networkCalls (runSearch o) = 0 ∧ (2 : Nat) ≠ 0) ∧
    (∀ o : CrawlOpts, ¬(1 ≤ o.max_depth ∧ o.max_depth ≤ 5) →
      runCrawl o = .usageError 2 ∧ runMap o = .usageError 2 ∧
        networkCalls (runCrawl o) = 0 ∧ networkCalls (runMap o) = 0) ∧
    (∀ (o : CrawlOpts) (t : Int), o.timeout = some t → ¬(10 ≤ t ∧ t ≤ 150) →
      runCrawl o = .usageError 2 ∧ runMap o = .usageError 2 ∧
        networkCalls (runCrawl o) = 0 ∧ networkCalls (runMap o) = 0) ∧
    (∀ (o : ExtractOpts) (t : Int), o.timeout = some t → ¬(1 ≤ t ∧ t ≤ 60) →
      runExtract o = .usageError 2 ∧ networkCalls (runExtract o) = 0) := by
  have hr : ∀ lo hi n : Int, ¬(lo ≤ n ∧ n ≤ hi) → rangeOk lo hi n = false := by
    intro lo hi n h
    simp only [rangeOk, decide_eq_false_iff_not]
    exact h
  refine ⟨?_, ?_, ?_, ?_⟩
  · intro o h
    unfold runSearch; rw [if_neg (by rw [hr _ _ _ h]; simp)]
    exact ⟨rfl, rfl, by decide⟩
  · intro o h
    have hb : (rangeOk 1 5 o.max_depth && timeoutOk 10 150 o.timeout) = false := by
      rw [hr _ _ _ h]; simp
    unfold runCrawl runMap
    rw [if_neg (by rw [hb]; simp)]
    exact ⟨rfl, rfl, rfl, rfl⟩
  · intro o t ht h
    have hb : (rangeOk 1 5 o.max_depth && timeoutOk 10 150 o.timeout) = false := by
      rw [show timeoutOk 10 150 o.timeout = false from by rw [ht, timeoutOk, hr _ _ _ h]]
      simp
    unfold runCrawl runMap
    rw [if_neg (by rw [hb]; simp)]
    exact ⟨rfl, rfl, rfl, rfl⟩
  · intro o t ht h
    have hb : timeoutOk 1 60 o.timeout = false := by rw [ht, timeoutOk, hr _ _ _ h]
    unfold runExtract; rw [if_neg (by rw [hb]; simp)]
    exact ⟨rfl, rfl⟩

/-- Witness for C6: `max_results = 25` (the spec's example) is rejected with
exit code 2, and an out-of-range crawl timeout likewise. -/
theorem c6_range_validation_witness :
    runSearch ⟨"q", "basic", "general", 25, none, none, none, false, none, none, none⟩ =
      .usageError 2 ∧
    runCrawl ⟨"https://e.com", 1, 20, 50, some 200⟩ = .usageError 2 :=
  ⟨(c6_range_validation.1 _ (by decide)).1,
   (c6_range_validation.2.2.1 _ 200 rfl (by decide)).1⟩

/-! ## parse_list : split / strip / filter lemmas -/

theorem pySplit_ne_nil (sep : Char) (s : List Char) : pySplit sep s ≠ [] := by
  induction s with
  | nil => simp [pySplit]
  | cons c rest ih =>
    by_cases hc : c = sep
    · simp [pySplit, hc]
    · simp only [pySplit, if_neg hc]
      rcases h : pySplit sep rest with _ | ⟨g, gs⟩ <;> simp

theorem pySplit_no_sep (sep : Char) (s : List Char) :
    ∀ g ∈ pySplit sep s, sep ∉ g := by
  induction s with
  | nil =>
    intro g hg
    rw [show pySplit sep [] = [[]] from rfl, List.mem_singleton] at hg
    subst hg; simp
  | cons c rest ih =>
    intro g hg
    by_cases hc : c = sep
    · rw [show pySplit sep (c :: rest) = [] :: pySplit sep rest from by
        simp [pySplit, hc], List.mem_cons] at hg
      rcases hg with hg | hg
      · subst hg; simp
      · exact ih g hg
    · rcases h : pySplit sep rest with _ | ⟨g', gs⟩
      · exact absurd h (pySplit_ne_nil sep rest)
      · rw [show pySplit sep (c :: rest) = (c :: g') :: gs from by
          simp only [pySplit, if_neg hc, h], List.mem_cons] at hg
        rcases hg with hg | hg
        · subst hg
          intro hmem
          rcases List.mem_cons.mp hmem with h1 | h1
          · exact hc h1.symm
          · exact ih g' (by rw [h]; exact List.mem_cons_self _ _) h1
        · exact ih g (by rw [h]; exact List.mem_cons_of_mem _ hg)

theorem mem_pyStrip {c : Char} {x : List Char} (h : c ∈ pyStrip x) : c ∈ x := by
  unfold pyStrip at h
  rw [List.mem_reverse] at h
  have h1 := (List.dropWhile_suffix (l := (x.dropWhile Char.isWhitespace).reverse)
    Char.isWhitespace).sublist.subset h
  rw [List.mem_reverse] at h1
  exact (List.dropWhile_suffix (l := x) Char.isWhitespace).sublist.subset h1

theorem dropWhile_head_false {p : Char → Bool} {l res : List Char}
    (h : l.dropWhile p = res) : res = [] ∨ ∃ c t, res = c :: t ∧ p c = false := by
  induction l with
  | nil => left; simpa using h.symm
  | cons c rest ih =>
    by_cases hc : p c
    · rw [List.dropWhile_cons_of_pos hc] at h
      exact ih h
    · rw [List.dropWhile_cons_of_neg hc] at h
      right
      exact ⟨c, rest, h.symm, by simpa using hc⟩

theorem dropWhile_eq_self_of_head {p : Char → Bool} {l : List Char}
    (h : l = [] ∨ ∃ c t, l = c :: t ∧ p c = false) : l.dropWhile p = l := by
  rcases h with h | ⟨c, t, h, hc⟩
  · simp [h]
  · subst h
    exact List.dropWhile_cons_of_neg (by simp [hc])

theorem pyStrip_idem (x : List Char) : pyStrip (pyStrip x) = pyStrip x := by
  by_cases hz : pyStrip x = []
  · rw [hz]; rfl
  set p := Char.isWhitespace
  set y := x.dropWhile p with hy
  set z := y.reverse.dropWhile p with hzdef
  have hxz : pyStrip x = z.reverse := rfl
  have hzne : z ≠ [] := by
    intro h
    exact hz (by rw [hxz, h]; rfl)
  have hyne : y.reverse ≠ [] := by
    intro h
    exact hzne (by rw [hzdef, h]; rfl)
  -- head of z is not whitespace
  have hzhead : z = [] ∨ ∃ c t, z = c :: t ∧ p c = false :=
    dropWhile_head_false (l := y.reverse) rfl
  -- last of z = last of y.reverse = head of y, not whitespace
  have hyhead : y = [] ∨ ∃ c t, y = c :: t ∧ p c = false :=
    dropWhile_head_false (l := x) rfl
  have hyne' : y ≠ [] := by
    intro h
    exact hyne (by rw [h]; rfl)
  obtain ⟨c, t, hyct, hc⟩ := hyhead.resolve_left hyne'
  have hlast : z.getLast? = some c := by
    obtain ⟨pre, hpre⟩ := List.dropWhile_suffix (l := y.reverse) p
    rw [← hzdef] at hpre
    have h1 : z.getLast? = y.reverse.getLast? := by
      conv_rhs => rw [← hpre]
      rw [List.getLast?_append_of_ne_nil _ hzne]
    rw [h1, List.getLast?_reverse, hyct]
    simp
  have hstep1 : z.reverse.dropWhile p = z.reverse := by
    apply dropWhile_eq_self_of_head
    right
    refine ⟨c, z.reverse.tail, ?_, hc⟩
    have : z.reverse.head? = some c := by rw [List.head?_reverse]; exact hlast
    rcases hrev : z.reverse with _ | ⟨a, b⟩
    · rw [hrev] at this; simp at this
    · rw [hrev] at this; simp at this; simp [this]
  have hstep2 : z.dropWhile p = z := by
    apply dropWhile_eq_self_of_head
    rcases hzhead with h | h
    · exact Or.inl h
    · exact Or.inr h
  rw [hxz]
  show ((z.reverse.dropWhile p).reverse.dropWhile p).reverse = z.reverse
  rw [hstep1, List.reverse_reverse, hstep2]

theorem pySplit_single {x : List Char} (h : ',' ∉ x) : pySplit ',' x = [x] := by
  induction x with
  | nil => rfl
  | cons c t ih =>
    have hc : c ≠ ',' := fun hc => h (by simp [hc])
    have ht : ',' ∉ t := fun hm => h (List.mem_cons_of_mem _ hm)
    simp only [pySplit, if_neg (by exact fun hcc => hc hcc), ih ht]

theorem pySplit_append {x t : List Char} (h : ',' ∉ x) :
    pySplit ',' (x ++ ',' :: t) = x :: pySplit ',' t := by
  induction x with
  | nil => simp [pySplit]
  | cons c x' ih =>
    have hc : c ≠ ',' := fun hc => h (by simp [hc])
    have hx' : ',' ∉ x' := fun hm => h (List.mem_cons_of_mem _ hm)
    have hi := ih hx'
    simp only [List.cons_append, pySplit, if_neg (by exact fun hcc => hc hcc),
      List.append_eq] at hi ⊢
    rw [hi]

theorem commaJoin_split {ls : List (List Char)} (hne : ls ≠ [])
    (h : ∀ g ∈ ls, ',' ∉ g) : pySplit ',' (commaJoinChars ls) = ls := by
  induction ls with
  | nil => exact absurd rfl hne
  | cons x rest ih =>
    rcases rest with _ | ⟨y, rest'⟩
    · exact pySplit_single (h x (by simp))
    · rw [show commaJoinChars (x :: y :: rest') = x ++ ',' :: commaJoinChars (y :: rest')
        from rfl]
      rw [pySplit_append (h x (by simp))]
      rw [ih (by simp) (fun g hg => h g (List.mem_cons_of_mem _ hg))]

theorem commaJoinChars_ne_nil {y : List Char} {rest : List (List Char)} (hy : y ≠ []) :
    commaJoinChars (y :: rest) ≠ [] := by
  rcases rest with _ | ⟨z, rest'⟩
  · simpa [commaJoinChars]
  · simp only [commaJoinChars]
    intro h
    rcases List.append_eq_nil.mp h with ⟨h1, _⟩
    exact hy h1

/-! ## C4 (corrected): parse_list -/

/-- Counterexample to C4 as stated: on input ", ," (non-empty, all elements
blank) `parse_list` returns the empty list, whose comma-join is the empty
string, and re-parsing that yields `none` (no filter) rather than the same
(empty) list. -/
theorem c4_counterexample :
    parse_list (some ", ,") = some [] ∧ commaJoin [] = "" ∧
      parse_list (some (commaJoin [])) = none := by
  refine ⟨by decide, by decide, by decide⟩

/-- C4 (amended): `parse_list` maps `"a, b , c"` to `["a","b","c"]`; its
output is always an order-preserving sublist of the stripped split
elements; every returned element is non-empty; empty or absent input gives
no filter (`none`); and re-parsing the comma-join of a *non-empty* output
returns the same list (for the empty-list output the join is `""`, which
re-parses to `none`, per the counterexample). -/
theorem c4_parse_list :
    parse_list (some "a, b , c") = some ["a", "b", "c"] ∧
    parse_list none = none ∧ parse_list (some "") = none ∧
    ∀ v l, parse_list (some v) = some l →
      (l.Sublist ((pySplit ',' v.data).map (fun x => (⟨pyStrip x⟩ : String))) ∧
       (∀ x ∈ l, x ≠ "") ∧
       (l ≠ [] → parse_list (some (commaJoin l)) = some l)) := by
  refine ⟨by decide, rfl, by decide, ?_⟩
  intro v l h
  by_cases hv : v = ""
  · rw [hv] at h
    rw [show parse_list (some "") = none from rfl] at h
    exact Option.noConfusion h
  rw [parse_list, if_neg hv] at h
  set L := ((pySplit ',' v.data).map pyStrip).filter (fun x => !x.isEmpty) with hL
  have hl : l = L.map (fun x => (⟨x⟩ : String)) := by
    have := h.symm
    injection this
  have hLmem : ∀ y ∈ L, ',' ∉ y ∧ y ≠ [] ∧ pyStrip y = y := by
    intro y hy
    rw [hL, List.mem_filter] at hy
    obtain ⟨hy1, hy2⟩ := hy
    obtain ⟨z, hz, hzy⟩ := List.mem_map.mp hy1
    refine ⟨?_, ?_, ?_⟩
    · intro hmem
      exact pySplit_no_sep ',' v.data z hz (mem_pyStrip (hzy ▸ hmem))
    · intro hnil
      rw [hnil] at hy2; simp at hy2
    · rw [← hzy, pyStrip_idem]
  refine ⟨?_, ?_, ?_⟩
  · rw [hl, hL]
    have h1 : (((pySplit ',' v.data).map pyStrip).filter (fun x => !x.isEmpty)).Sublist
        ((pySplit ',' v.data).map pyStrip) := List.filter_sublist _
    have h2 := h1.map (fun x => (⟨x⟩ : String))
    rwa [List.map_map] at h2
  · intro x hx
    rw [hl] at hx
    obtain ⟨y, hy, hxy⟩ := List.mem_map.mp hx
    rw [← hxy]
    intro hxe
    exact (hLmem y hy).2.1 (congrArg String.data hxe)
  · intro hlne
    have hLne : L ≠ [] := by
      intro hLnil
      rw [hLnil] at hl
      exact hlne (by simp [hl])
    have hdata : (l.map String.data) = L := by
      rw [hl, List.map_map]
      exact List.map_id' L
    rw [commaJoin, hdata]
    obtain ⟨y, rest, hyrest⟩ := List.exists_cons_of_ne_nil hLne
    have hyne : y ≠ [] := by
      have := (hLmem y (by rw [hyrest]; simp)).2.1
      exact this
    have hjoin_ne : commaJoinChars L ≠ [] := by
      rw [hyrest]; exact commaJoinChars_ne_nil hyne
    have hstr_ne : (⟨commaJoinChars L⟩ : String) ≠ "" := by
      intro hh
      have := congrArg String.data hh
      simp at this
      exact hjoin_ne this
    rw [parse_list, if_neg hstr_ne]
    have hsplit : pySplit ',' (String.data ⟨commaJoinChars L⟩) = L := by
      show pySplit ',' (commaJoinChars L) = L
      exact commaJoin_split hLne (fun g hg => (hLmem g hg).1)
    rw [hsplit]
    have hmapstrip : L.map pyStrip = L := by
      rw [List.map_congr_left (fun y hy => (hLmem y hy).2.2)]
      exact List.map_id' L
    rw [hmapstrip]
    have hfilter : L.filter (fun x => !x.isEmpty) = L := by
      apply List.filter_eq_self.mpr
      intro y hy
      simpa using (hLmem y hy).2.1
    rw [hfilter, ← hl]

/-- Witness for C4's amended universal part at a concrete input. -/
theorem c4_parse_list_witness :
    parse_list (some (commaJoin ["a", "b", "c"])) = some ["a", "b", "c"] :=
  (c4_parse_list.2.2.2 "a, b , c" ["a", "b", "c"] (by decide)).2.2 (by decide)

/-! ## C10: all-blank list input yields the empty list, and the filter is
still omitted -/

/-- C10: a non-empty input whose comma-separated elements are all blank
after stripping parses to the empty list (not `none`); the command layer's
truthiness test then still omits the parameter: with
`include_domains = some []`, the built search request has no
`include_domains` key. -/
theorem c10_empty_filter_omitted :
    parse_list (some ", ,") = some [] ∧
    (∀ v : String, v ≠ "" → (∀ x ∈ pySplit ',' v.data, pyStrip x = []) →
      parse_list (some v) = some []) ∧
    (∀ o : SearchOpts, o.include_domains = some [] →
      lookupField (searchKwargs o) "include_domains" = none) := by
  refine ⟨by decide, ?_, ?_⟩
  · intro v hv hall
    rw [parse_list, if_neg hv]
    congr 1
    have : ((pySplit ',' v.data).map pyStrip).filter (fun x => !x.isEmpty) = [] := by
      apply List.filter_eq_nil_iff.mpr
      intro y hy
      obtain ⟨z, hz, hzy⟩ := List.mem_map.mp hy
      rw [← hzy, hall z hz]
      simp
    rw [this]
    rfl
  · intro o h
    have hkeys : ∀ p ∈ searchKwargs o, p.1 ≠ "include_domains" := by
      intro p hp
      simp only [searchKwargs, List.append_assoc, List.mem_append, List.mem_cons,
        List.not_mem_nil, or_false] at hp
      rcases hp with (hp | hp | hp | hp | hp) | hp | hp | hp | hp | hp | hp
      · subst hp
        exact fun hq => absurd hq (show ¬("query" : String) = "include_domains" by decide)
      · subst hp
        exact fun hq =>
          absurd hq (show ¬("search_depth" : String) = "include_domains" by decide)
      · subst hp
        exact fun hq => absurd hq (show ¬("topic" : String) = "include_domains" by decide)
      · subst hp
        exact fun hq =>
          absurd hq (show ¬("max_results" : String) = "include_domains" by decide)
      · subst hp
        exact fun hq =>
          absurd hq (show ¬("include_images" : String) = "include_domains" by decide)
      · rw [strOptEntry_keys p hp]; decide
      · rw [strOptEntry_keys p hp]; decide
      · rw [strOptEntry_keys p hp]; decide
      · rw [h] at hp
        simp [listOptEntry] at hp
      · rw [listOptEntry_keys p hp]; decide
      · rw [strOptEntry_keys p hp]; decide
    exact lookupField_eq_none_of_ne hkeys

/-- Witness for C10 at a concrete option record. -/
theorem c10_empty_filter_omitted_witness :
    lookupField
      (searchKwargs ⟨"q", "basic", "general", 5, none, none, none, false,
        some [], none, none⟩) "include_domains" = none :=
  c10_empty_filter_omitted.2.2 _ rfl

/-! ## Usage renderer evaluation -/

theorem intChars_zero : intChars 0 = ['0'] := by
  rw [show intChars 0 = natChars 0 from rfl, natChars]
  decide

theorem pyStr_num_zero : pyStr (Json.num 0) = "0" := by
  rw [show pyStr (Json.num 0) = pyRepr (Json.num 0) from rfl]
  simp only [pyRepr]
  rw [intChars_zero]

theorem display_usage_mk (is_md : Bool) (kf af : Option (List (String × Json))) :
    display_usage (if is_md then "markdown" else "text") (mkUsageResponse kf af) =
      some [if is_md then "# API Usage\n" else "API Usage\n",
        if is_md then "## API Key" else "API Key:",
        (if is_md then "- **Usage:** " else "  Usage: ") ++
          pyStr ((lookupField (kf.getD []) "usage").getD (.num 0)),
        (if is_md then "- **Limit:** " else "  Limit: ") ++
          (if ((lookupField (kf.getD []) "limit").getD .null).truthy then
            pyStr ((lookupField (kf.getD []) "limit").getD .null) else "Unlimited") ++ "\n",
        if is_md then "## Account" else "Account:",
        (if is_md then "- **Plan:** " else "  Plan: ") ++
          pyStr ((lookupField (af.getD []) "current_plan").getD (.str "Unknown")),
        (if is_md then "- **Plan Usage:** " else "  Plan Usage: ") ++
          pyStr ((lookupField (af.getD []) "plan_usage").getD (.num 0)) ++ " / " ++
          pyStr ((lookupField (af.getD []) "plan_limit").getD (.num 0)),
        (if is_md then "- **PayGo Usage:** " else "  PayGo Usage: ") ++
          pyStr ((lookupField (af.getD []) "paygo_usage").getD (.num 0)) ++ " / " ++
          pyStr ((lookupField (af.getD []) "paygo_limit").getD (.num 0))] := by
  cases is_md <;> cases kf <;> cases af <;>
    simp [display_usage, mkUsageResponse, optField, Json.dictGet, Json.asObj, lookupField]

/-! ## C9: a zero (falsy) limit renders "Unlimited" -/

/-- C9: when `key.limit` is present and falsy — in particular the numeric
value 0 — the rendered limit is the literal "Unlimited", in both text and
markdown modes: the truthiness test treats every falsy value (null, 0,
empty string) exactly like an absent limit. -/
theorem c9_limit_zero_unlimited (is_md : Bool) (kvs : List (String × Json))
    (af : Option (List (String × Json))) (j : Json)
    (hlim : lookupField kvs "limit" = some j) (hfalsy : j.truthy = false) :
    Json.truthy (.num 0) = false ∧
    ∃ out, display_usage (if is_md then "markdown" else "text")
        (mkUsageResponse (some kvs) af) = some out ∧
      ((if is_md then "- **Limit:** " else "  Limit: ") ++ "Unlimited" ++ "\n") ∈ out := by
  refine ⟨by decide, ?_⟩
  refine ⟨_, display_usage_mk is_md (some kvs) af, ?_⟩
  have hg : (lookupField ((some kvs).getD []) "limit").getD .null = j := by
    simp [hlim]
  rw [hg, hfalsy]
  simp

/-- Witness for C9: `key.limit = 0` in markdown mode. -/
theorem c9_limit_zero_unlimited_witness :
    ∃ out, display_usage "markdown" (mkUsageResponse (some [("limit", .num 0)]) none) =
        some out ∧ ("- **Limit:** " ++ "Unlimited" ++ "\n") ∈ out := by
  have h := c9_limit_zero_unlimited true [("limit", .num 0)] none (.num 0)
    (by simp [lookupField]) (by decide)
  exact h.2

/-! ## C7 (corrected): the usage renderer's defaults -/

/-- Counterexample to C7 as stated: in json mode the usage renderer
early-returns the raw dump, so for a usage Response whose `key.limit` is
null it emits exactly the indented JSON text — which contains no "API Key"
or "Account" subsection and no literal "Unlimited" (indeed no character
'U' or 'A' at all); the claim's "in every output mode" fails at json. -/
theorem c7_counterexample :
    display_usage "json" (.obj [("key", .obj [("limit", .null)])]) =
      some ["\x7b\n  \"key\": \x7b\n    \"limit\": null\n  \x7d\n\x7d"] ∧
    ∀ l ∈ ["\x7b\n  \"key\": \x7b\n    \"limit\": null\n  \x7d\n\x7d"],
      ¬('U' ∈ l.data) ∧ ¬('A' ∈ l.data) := by
  exact ⟨rfl, by decide⟩

/-- C7 (amended): in text and markdown modes the usage renderer always
emits both the "API Key" and "Account" subsections, whichever fields are
present; it substitutes 0 for each missing numeric field, "Unknown" for a
missing plan name, and renders the literal "Unlimited" when `key.limit` is
null or absent.  (In json mode the renderer instead emits only the raw
dump, per the counterexample.) -/
theorem c7_usage_renderer (is_md : Bool) (kf af : Option (List (String × Json))) :
    ∃ out, display_usage (if is_md then "markdown" else "text")
        (mkUsageResponse kf af) = some out ∧
      ((if is_md then "## API Key" else "API Key:") ∈ out) ∧
      ((if is_md then "## Account" else "Account:") ∈ out) ∧
      (lookupField (kf.getD []) "usage" = none →
        ((if is_md then "- **Usage:** " else "  Usage: ") ++ "0") ∈ out) ∧
      ((lookupField (kf.getD []) "limit" = none ∨
          lookupField (kf.getD []) "limit" = some .null) →
        ((if is_md then "- **Limit:** " else "  Limit: ") ++ "Unlimited" ++ "\n") ∈ out) ∧
      (lookupField (af.getD []) "current_plan" = none →
        ((if is_md then "- **Plan:** " else "  Plan: ") ++ "Unknown") ∈ out) ∧
      (lookupField (af.getD []) "plan_usage" = none →
        lookupField (af.getD []) "plan_limit" = none →
        ((if is_md then "- **Plan Usage:** " else "  Plan Usage: ") ++ "0" ++ " / " ++ "0")
          ∈ out) ∧
      (lookupField (af.getD []) "paygo_usage" = none →
        lookupField (af.getD []) "paygo_limit" = none →
        ((if is_md then "- **PayGo Usage:** " else "  PayGo Usage: ") ++ "0" ++ " / " ++ "0")
          ∈ out) := by
  refine ⟨_, display_usage_mk is_md kf af, ?_, ?_, ?_, ?_, ?_, ?_, ?_⟩
  · simp
  · simp
  · intro h
    rw [show ((lookupField (kf.getD []) "usage").getD (.num 0)) = Json.num 0 from by
      simp [h]]
    rw [pyStr_num_zero]
    simp
  · intro h
    have hfalse : ((lookupField (kf.getD []) "limit").getD .null).truthy = false := by
      rcases h with h | h <;> rw [h] <;> rfl
    rw [hfalse]
    simp
  · intro h
    rw [show ((lookupField (af.getD []) "current_plan").getD (.str "Unknown")) =
      Json.str "Unknown" from by simp [h]]
    rw [show pyStr (Json.str "Unknown") = "Unknown" from rfl]
    simp
  · intro h1 h2
    rw [show ((lookupField (af.getD []) "plan_usage").getD (.num 0)) = Json.num 0 from by
      simp [h1]]
    rw [show ((lookupField (af.getD []) "plan_limit").getD (.num 0)) = Json.num 0 from by
      simp [h2]]
    rw [pyStr_num_zero]
    simp
  · intro h1 h2
    rw [show ((lookupField (af.getD []) "paygo_usage").getD (.num 0)) = Json.num 0 from by
      simp [h1]]
    rw [show ((lookupField (af.getD []) "paygo_limit").getD (.num 0)) = Json.num 0 from by
      simp [h2]]
    rw [pyStr_num_zero]
    simp

/-- Witness for C7: the fully-empty usage response in text mode. -/
theorem c7_usage_renderer_witness :
    ∃ out, display_usage "text" (mkUsageResponse none none) = some out ∧
      ("API Key:" ∈ out) ∧ ("Account:" ∈ out) ∧
      ("  Usage: " ++ "0") ∈ out ∧ ("  Limit: " ++ "Unlimited" ++ "\n") ∈ out ∧
      ("  Plan: " ++ "Unknown") ∈ out := by
  have h := c7_usage_renderer false none none
  obtain ⟨out, h1, h2, h3, h4, h5, h6, _⟩ := h
  exact ⟨out, h1, h2, h3, h4 rfl, h5 (Or.inl rfl), h6 rfl⟩

/-! ## C1: truncation at every stated site -/

theorem pyTake_length_of_lt {c : String} {t : Nat} (h : t < pyLen c) :
    pyLen (pyTake c t) = t := by
  show (c.data.take t).length = t
  rw [List.length_take]
  simp only [pyLen] at h
  omega

theorem pyTake_of_le {c : String} {t : Nat} (h : pyLen c ≤ t) : pyTake c t = c := by
  apply String.ext
  show c.data.take t = c.data
  exact List.take_of_length_le h

/-- C1: at each stated truncation site — search result content (text mode,
threshold 200), extract raw content (text mode, threshold 2000), crawl raw
content (markdown 500 / text 300) — content over the threshold renders as
exactly the first threshold-many characters followed by the omission
indicator, and content at or under the threshold renders unmodified with no
indicator appended. -/
theorem c1_truncation (c : String) :
    (200 < pyLen c →
      searchPreview c = pyTake c 200 ++ "..." ∧ pyLen (pyTake c 200) = 200) ∧
    (pyLen c ≤ 200 → searchPreview c = c) ∧
    (2000 < pyLen c →
      extractContentText c =
        [pyTake c 2000, "\n... (" ++ toString (pyLen c - 2000) ++ " more characters)",
         "\n" ++ String.mk (List.replicate 60 '-') ++ "\n"] ∧
      pyLen (pyTake c 2000) = 2000) ∧
    (pyLen c ≤ 2000 →
      extractContentText c = [c, "\n" ++ String.mk (List.replicate 60 '-') ++ "\n"]) ∧
    (500 < pyLen c →
      crawlPreview 500 c = pyTake c 500 ++ "..." ∧ pyLen (pyTake c 500) = 500) ∧
    (pyLen c ≤ 500 → crawlPreview 500 c = c) ∧
    (300 < pyLen c →
      crawlPreview 300 c = pyTake c 300 ++ "..." ∧ pyLen (pyTake c 300) = 300) ∧
    (pyLen c ≤ 300 → crawlPreview 300 c = c) := by
  have hnonempty : ∀ t : Nat, t < pyLen c → c ≠ "" := by
    intro t ht hc
    rw [hc] at ht
    simp [pyLen] at ht
  refine ⟨?_, ?_, ?_, ?_, ?_, ?_, ?_, ?_⟩
  · intro h
    exact ⟨by rw [searchPreview, if_pos h], pyTake_length_of_lt h⟩
  · intro h
    rw [searchPreview, if_neg (by omega), pyTake_of_le h]
    apply String.ext
    simp [String.data_append]
  · intro h
    exact ⟨by rw [extractContentText, if_pos h]; simp, pyTake_length_of_lt h⟩
  · intro h
    rw [extractContentText, if_neg (by omega), pyTake_of_le h]
    simp
  · intro h
    refine ⟨?_, pyTake_length_of_lt h⟩
    rw [crawlPreview, if_neg (hnonempty 500 h), if_pos h]
  · intro h
    rw [crawlPreview, if_neg (show ¬(500 < pyLen c) by omega)]
    by_cases hc : c = ""
    · rw [if_pos hc, hc]
      apply String.ext
      simp [String.data_append]
    · rw [if_neg hc, pyTake_of_le h]
      apply String.ext
      simp [String.data_append]
  · intro h
    refine ⟨?_, pyTake_length_of_lt h⟩
    rw [crawlPreview, if_neg (hnonempty 300 h), if_pos h]
  · intro h
    rw [crawlPreview, if_neg (show ¬(300 < pyLen c) by omega)]
    by_cases hc : c = ""
    · rw [if_pos hc, hc]
      apply String.ext
      simp [String.data_append]
    · rw [if_neg hc, pyTake_of_le h]
      apply String.ext
      simp [String.data_append]

set_option maxRecDepth 4000 in
/-- Witness for C1: a 201-character string truncates at 200 with the
ellipsis appended; a 2-character string renders unmodified. -/
theorem c1_truncation_witness :
    (searchPreview ⟨List.replicate 201 'a'⟩ =
        pyTake ⟨List.replicate 201 'a'⟩ 200 ++ "..." ∧
      pyLen (pyTake ⟨List.replicate 201 'a'⟩ 200) = 200) ∧
    searchPreview "hi" = "hi" ∧ crawlPreview 300 "hi" = "hi" :=
  ⟨(c1_truncation _).1 (by decide), (c1_truncation "hi").2.1 (by decide),
   (c1_truncation "hi").2.2.2.2.2.2.2 (by decide)⟩

/-! ## Renderer totality machinery -/

theorem keys_append {l₁ l₂ : List (String × Json)} {k : String}
    (h₁ : ∀ p ∈ l₁, p.1 ≠ k) (h₂ : ∀ p ∈ l₂, p.1 ≠ k) :
    ∀ p ∈ l₁ ++ l₂, p.1 ≠ k := by
  intro p hp
  rcases List.mem_append.mp hp with h | h
  · exact h₁ p h
  · exact h₂ p h

theorem optField_keys_ne {k' k : String} {v : Option Json} (hk : k' ≠ k) :
    ∀ p ∈ optField k' v, p.1 ≠ k :=
  fun p hp => by rw [optField_keys p hp]; exact hk

theorem lookup_optField_head {k : String} {v : Option Json}
    {rest : List (String × Json)} (hrest : ∀ p ∈ rest, p.1 ≠ k) :
    lookupField (optField k v ++ rest) k = v := by
  rcases v with _ | j
  · rw [show optField k none = [] from rfl, List.nil_append]
    exact lookupField_eq_none_of_ne hrest
  · simp [optField, lookupField]

theorem lookup_optField_last {k : String} {v : Option Json} :
    lookupField (optField k v) k = v := by
  rcases v with _ | j <;> simp [optField, lookupField]

theorem mkSearchResponse_query (q a : Option String) (rs io : Option (List Json))
    (rt : Option Int) :
    (mkSearchResponse q a rs io rt).dictGet "query" (.str "") =
      some ((q.map Json.str).getD (.str "")) := by
  simp only [mkSearchResponse, Json.dictGet]
  rw [List.append_assoc, List.append_assoc, List.append_assoc,
    lookup_optField_head (keys_append (optField_keys_ne (by decide))
      (keys_append (optField_keys_ne (by decide)) (keys_append (optField_keys_ne (by decide))
        (optField_keys_ne (by decide)))))]

theorem mkSearchResponse_answer (q a : Option String) (rs io : Option (List Json))
    (rt : Option Int) :
    (mkSearchResponse q a rs io rt).getKey? "answer" = a.map Json.str := by
  simp only [mkSearchResponse, Json.getKey?]
  rw [List.append_assoc, List.append_assoc, List.append_assoc,
    lookup_optField_ne (by decide),
    lookup_optField_head (keys_append (optField_keys_ne (by decide))
      (keys_append (optField_keys_ne (by decide)) (optField_keys_ne (by decide))))]

theorem mkSearchResponse_results (q a : Option String) (rs io : Option (List Json))
    (rt : Option Int) :
    (mkSearchResponse q a rs io rt).dictGet "results" (.arr []) =
      some ((rs.map Json.arr).getD (.arr [])) := by
  simp only [mkSearchResponse, Json.dictGet]
  rw [List.append_assoc, List.append_assoc, List.append_assoc,
    lookup_optField_ne (by decide), lookup_optField_ne (by decide),
    lookup_optField_head (keys_append (optField_keys_ne (by decide))
      (optField_keys_ne (by decide)))]

theorem mkSearchResponse_images (q a : Option String) (rs io : Option (List Json))
    (rt : Option Int) :
    (mkSearchResponse q a rs io rt).dictGet "images" (.arr []) =
      some ((io.map Json.arr).getD (.arr [])) := by
  simp only [mkSearchResponse, Json.dictGet]
  rw [List.append_assoc, List.append_assoc, List.append_assoc,
    lookup_optField_ne (by decide), lookup_optField_ne (by decide),
    lookup_optField_ne (by decide),
    lookup_optField_head (optField_keys_ne (by decide))]

theorem mkSearchResponse_rt (q a : Option String) (rs io : Option (List Json))
    (rt : Option Int) :
    (mkSearchResponse q a rs io rt).getKey? "response_time" = rt.map Json.num := by
  simp only [mkSearchResponse, Json.getKey?]
  rw [List.append_assoc, List.append_assoc, List.append_assoc,
    lookup_optField_ne (by decide), lookup_optField_ne (by decide),
    lookup_optField_ne (by decide), lookup_optField_ne (by decide),
    lookup_optField_last]

theorem asList_mapArr (rs : Option (List Json)) :
    Json.asList ((rs.map Json.arr).getD (.arr [])) = some (rs.getD []) := by
  rcases rs <;> rfl

theorem responseTimeLines_of_getKey {is_md : Bool} {r : Json} {rt : Option Int}
    (h : r.getKey? "response_time" = rt.map Json.num) :
    responseTimeLines is_md r = some (rtSegment is_md rt) := by
  rw [responseTimeLines, h]
  rcases rt with _ | t
  · rfl
  · cases is_md <;> rfl

theorem display_search_eval (is_md : Bool) (q a : Option String)
    (rs io : Option (List Json)) (rt : Option Int) (itemLines : List String)
    (hitems : flatMapM (fun p => searchItem is_md p.1 p.2) (enumFrom 1 (rs.getD [])) =
      some itemLines) :
    display_search_results (if is_md then "markdown" else "text")
        (mkSearchResponse q a rs io rt) =
      some ((if is_md then ["# Search: " ++ pyStr ((q.map Json.str).getD (.str "")) ++ "\n"]
             else ["Search: " ++ pyStr ((q.map Json.str).getD (.str "")) ++ "\n"]) ++
        ((match a.map Json.str with
          | some aj => if aj.truthy then
              (if is_md then ["## Answer\n\n" ++ pyStr aj ++ "\n"]
               else ["Answer:", pyStr aj ++ "\n"]) else []
          | none => []) ++
        ([if is_md then "## Results (" ++ toString (rs.getD []).length ++ ")\n"
          else "Results (" ++ toString (rs.getD []).length ++ "):\n"] ++
        (itemLines ++
        ((if !(io.getD []).isEmpty then
            ((if is_md then "## Images (" ++ toString (io.getD []).length ++ ")\n"
              else "Images (" ++ toString (io.getD []).length ++ "):") ::
              (io.getD []).map (imgLine is_md))
          else []) ++
        rtSegment is_md rt))))) := by
  have hrt := @responseTimeLines_of_getKey is_md _ _ (mkSearchResponse_rt q a rs io rt)
  cases is_md <;> rcases a with _ | a <;> rcases io with _ | io <;>
    simp [display_search_results, mkSearchResponse_query, mkSearchResponse_answer,
      mkSearchResponse_results, mkSearchResponse_images, asList_mapArr, hitems, hrt,
      Json.truthy, Json.asList, List.append_assoc] <;>
    (try (split <;> simp))

theorem mkExtractResponse_results (rs fl : Option (List Json)) (rt : Option Int) :
    (mkExtractResponse rs fl rt).dictGet "results" (.arr []) =
      some ((rs.map Json.arr).getD (.arr [])) := by
  simp only [mkExtractResponse, Json.dictGet]
  rw [List.append_assoc,
    lookup_optField_head (keys_append (optField_keys_ne (by decide))
      (optField_keys_ne (by decide)))]

theorem mkExtractResponse_failed (rs fl : Option (List Json)) (rt : Option Int) :
    (mkExtractResponse rs fl rt).dictGet "failed_results" (.arr []) =
      some ((fl.map Json.arr).getD (.arr [])) := by
  simp only [mkExtractResponse, Json.dictGet]
  rw [List.append_assoc, lookup_optField_ne (by decide),
    lookup_optField_head (optField_keys_ne (by decide))]

theorem mkExtractResponse_rt (rs fl : Option (List Json)) (rt : Option Int) :
    (mkExtractResponse rs fl rt).getKey? "response_time" = rt.map Json.num := by
  simp only [mkExtractResponse, Json.getKey?]
  rw [List.append_assoc, lookup_optField_ne (by decide), lookup_optField_ne (by decide),
    lookup_optField_last]

theorem mkCrawlResponse_base (b : Option String) (rs : Option (List Json))
    (rt : Option Int) :
    (mkCrawlResponse b rs rt).dictGet "base_url" (.str "") =
      some ((b.map Json.str).getD (.str "")) := by
  simp only [mkCrawlResponse, Json.dictGet]
  rw [List.append_assoc,
    lookup_optField_head (keys_append (optField_keys_ne (by decide))
      (optField_keys_ne (by decide)))]

theorem mkCrawlResponse_results (b : Option String) (rs : Option (List Json))
    (rt : Option Int) :
    (mkCrawlResponse b rs rt).dictGet "results" (.arr []) =
      some ((rs.map Json.arr).getD (.arr [])) := by
  simp only [mkCrawlResponse, Json.dictGet]
  rw [List.append_assoc, lookup_optField_ne (by decide),
    lookup_optField_head (optField_keys_ne (by decide))]

theorem mkCrawlResponse_rt (b : Option String) (rs : Option (List Json))
    (rt : Option Int) :
    (mkCrawlResponse b rs rt).getKey? "response_time" = rt.map Json.num := by
  simp only [mkCrawlResponse, Json.getKey?]
  rw [List.append_assoc, lookup_optField_ne (by decide), lookup_optField_ne (by decide),
    lookup_optField_last]

theorem display_extract_eval (is_md : Bool) (rs fl : Option (List Json)) (rt : Option Int)
    (itemLines flines : List String)
    (hitems : flatMapM (fun p => extractItem is_md p.1 p.2) (enumFrom 1 (rs.getD [])) =
      some itemLines)
    (hfail : mapM1 (failedLine is_md) (fl.getD []) = some flines) :
    display_extract_results (if is_md then "markdown" else "text")
        (mkExtractResponse rs fl rt) =
      some ((if is_md then ["# Extracted Content\n"] else ["Extracted Content\n"]) ++
        (itemLines ++
        ((if !(fl.getD []).isEmpty then
            ((if is_md then "## Failed URLs\n" else "Failed URLs:") :: flines)
          else []) ++
        rtSegment is_md rt))) := by
  have hrt := @responseTimeLines_of_getKey is_md _ _ (mkExtractResponse_rt rs fl rt)
  cases is_md <;> rcases fl with _ | fl <;>
    simp only [Option.getD_some, Option.getD_none] at hfail <;>
    simp [display_extract_results, mkExtractResponse_results, mkExtractResponse_failed,
      asList_mapArr, hitems, hrt, hfail, Json.truthy, Json.asList, List.append_assoc] <;>
    (try (split <;> simp [hfail]))

theorem display_crawl_eval (is_md : Bool) (b : Option String) (rs : Option (List Json))
    (rt : Option Int) (itemLines : List String)
    (hitems : flatMapM (fun p => crawlItem is_md p.1 p.2) (enumFrom 1 (rs.getD [])) =
      some itemLines) :
    display_crawl_results (if is_md then "markdown" else "text")
        (mkCrawlResponse b rs rt) =
      some ((if is_md then ["# Crawl Results: " ++ pyStr ((b.map Json.str).getD (.str "")) ++ "\n"]
             else ["Crawl Results: " ++ pyStr ((b.map Json.str).getD (.str "")) ++ "\n"]) ++
        ([if is_md then "## Pages Crawled (" ++ toString (rs.getD []).length ++ ")\n"
          else "Pages Crawled (" ++ toString (rs.getD []).length ++ "):\n"] ++
        (itemLines ++ rtSegment is_md rt))) := by
  have hrt := @responseTimeLines_of_getKey is_md _ _ (mkCrawlResponse_rt b rs rt)
  cases is_md <;>
    simp [display_crawl_results, mkCrawlResponse_base, mkCrawlResponse_results,
      asList_mapArr, Json.asList, hitems, hrt, List.append_assoc]

theorem display_map_eval (is_md : Bool) (b : Option String) (rs : Option (List Json))
    (rt : Option Int) :
    display_map_results (if is_md then "markdown" else "text") (mkCrawlResponse b rs rt) =
      some ((if is_md then
              ["# Site Map: " ++ pyStr ((b.map Json.str).getD (.str "")) ++ "\n",
               "## URLs Found (" ++ toString (rs.getD []).length ++ ")\n"]
             else
              ["Site Map: " ++ pyStr ((b.map Json.str).getD (.str "")) ++ "\n",
               "URLs Found (" ++ toString (rs.getD []).length ++ "):\n"]) ++
        ((rs.getD []).map (fun url =>
          if is_md then "- " ++ pyStr url else "  " ++ pyStr url) ++
        rtSegment is_md rt)) := by
  have hrt := @responseTimeLines_of_getKey is_md _ _ (mkCrawlResponse_rt b rs rt)
  cases is_md <;>
    simp [display_map_results, mkCrawlResponse_base, mkCrawlResponse_results,
      asList_mapArr, Json.asList, hrt, List.append_assoc]

theorem flatMapM_total {α : Type} {f : α → Option (List String)} {l : List α}
    (h : ∀ x ∈ l, ∃ y, f x = some y) : ∃ ys, flatMapM f l = some ys := by
  induction l with
  | nil => exact ⟨[], rfl⟩
  | cons x xs ih =>
    obtain ⟨y, hy⟩ := h x (by simp)
    obtain ⟨ys, hys⟩ := ih fun z hz => h z (by simp [hz])
    exact ⟨y ++ ys, by simp [flatMapM, hy, hys]⟩

theorem mapM1_total {α : Type} {f : α → Option String} {l : List α}
    (h : ∀ x ∈ l, ∃ y, f x = some y) : ∃ ys, mapM1 f l = some ys := by
  induction l with
  | nil => exact ⟨[], rfl⟩
  | cons x xs ih =>
    obtain ⟨y, hy⟩ := h x (by simp)
    obtain ⟨ys, hys⟩ := ih fun z hz => h z (by simp [hz])
    exact ⟨y :: ys, by simp [mapM1, hy, hys]⟩

theorem enumFrom_mem {l : List Json} {p : Nat × Json} :
    ∀ {i : Nat}, p ∈ enumFrom i l → p.2 ∈ l := by
  induction l with
  | nil => intro i h; simp [enumFrom] at h
  | cons x xs ih =>
    intro i h
    rw [show enumFrom i (x :: xs) = (i, x) :: enumFrom (i + 1) xs from rfl,
      List.mem_cons] at h
    rcases h with h | h
    · rw [h]; simp
    · exact List.mem_cons_of_mem _ (ih h)

theorem searchItem_total (is_md : Bool) (i : Nat) (t u c : Option String)
    (sc : Option Int) : ∃ ls, searchItem is_md i (mkSearchResult t u c sc) = some ls := by
  have hsc : lookupField ((mkSearchResult t u c sc).asObj.getD []) "score" =
      sc.map Json.num := by
    simp only [mkSearchResult, Json.asObj, Option.getD_some]
    rw [List.append_assoc, List.append_assoc, lookup_optField_ne (by decide),
      lookup_optField_ne (by decide), lookup_optField_ne (by decide), lookup_optField_last]
  have hc : lookupField ((mkSearchResult t u c sc).asObj.getD []) "content" =
      c.map Json.str := by
    simp only [mkSearchResult, Json.asObj, Option.getD_some]
    rw [List.append_assoc, List.append_assoc, lookup_optField_ne (by decide),
      lookup_optField_ne (by decide), lookup_optField_head (optField_keys_ne (by decide))]
  simp only [mkSearchResult, Json.asObj, Option.getD_some] at hsc hc
  cases is_md <;> rcases c with _ | c <;> rcases sc with _ | sc
  all_goals simp only [List.append_assoc, Option.map_some', Option.map_none'] at hsc hc
  all_goals simp [searchItem, mkSearchResult, Json.dictGet, hsc, hc, fmtF2, Json.asStr]

theorem extractItem_total (is_md : Bool) (i : Nat) (u c : Option String) :
    ∃ ls, extractItem is_md i (mkContentResult u c) = some ls := by
  have hc : lookupField ((mkContentResult u c).asObj.getD []) "raw_content" =
      c.map Json.str := by
    simp only [mkContentResult, Json.asObj, Option.getD_some]
    rw [lookup_optField_ne (by decide), lookup_optField_last]
  simp only [mkContentResult, Json.asObj, Option.getD_some] at hc
  cases is_md <;> rcases c with _ | c
  all_goals simp only [List.append_assoc, Option.map_some', Option.map_none'] at hc
  all_goals simp [extractItem, mkContentResult, Json.dictGet, hc, Json.asStr]

theorem crawlItem_total (is_md : Bool) (i : Nat) (u c : Option String) :
    ∃ ls, crawlItem is_md i (mkContentResult u c) = some ls := by
  have hc : lookupField ((mkContentResult u c).asObj.getD []) "raw_content" =
      c.map Json.str := by
    simp only [mkContentResult, Json.asObj, Option.getD_some]
    rw [lookup_optField_ne (by decide), lookup_optField_last]
  simp only [mkContentResult, Json.asObj, Option.getD_some] at hc
  cases is_md <;> rcases c with _ | c
  all_goals simp only [List.append_assoc, Option.map_some', Option.map_none'] at hc
  all_goals simp [crawlItem, mkContentResult, Json.dictGet, hc, Json.asStr]

theorem failedLine_total (is_md : Bool) (u e : Option String) :
    ∃ ls, failedLine is_md (mkFailedResult u e) = some ls := by
  simp [failedLine, mkFailedResult]

theorem shape2 {X : Option (List String)} {A E R : List String}
    (h : X = some (A ++ (E ++ R))) : ∃ body, X = some (body ++ R) :=
  ⟨A ++ E, by rw [h]; simp [List.append_assoc]⟩

theorem shape3 {X : Option (List String)} {A B E R : List String}
    (h : X = some (A ++ (B ++ (E ++ R)))) : ∃ body, X = some (body ++ R) :=
  ⟨A ++ (B ++ E), by rw [h]; simp [List.append_assoc]⟩

theorem shape5 {X : Option (List String)} {A B C D E R : List String}
    (h : X = some (A ++ (B ++ (C ++ (D ++ (E ++ R)))))) : ∃ body, X = some (body ++ R) :=
  ⟨A ++ (B ++ (C ++ (D ++ E))), by rw [h]; simp [List.append_assoc]⟩

/-! ## C8: renderers tolerate any subset of absent fields -/

/-- C8: for responses in which any subset of the optional fields is absent
(each renderer's expected shape otherwise respected), every renderer
completes without raising — each field access falls back to its explicit
default — and the trailing response-time segment is one line when the
`response_time` key is present and empty when it is absent. -/
theorem c8_missing_fields :
    (∀ (is_md : Bool) (q a : Option String) (rs io : Option (List Json)) (rt : Option Int),
      (∀ r ∈ rs.getD [], ∃ t u c sc, r = mkSearchResult t u c sc) →
      ∃ body, display_search_results (if is_md then "markdown" else "text")
          (mkSearchResponse q a rs io rt) = some (body ++ rtSegment is_md rt)) ∧
    (∀ (is_md : Bool) (rs fl : Option (List Json)) (rt : Option Int),
      (∀ r ∈ rs.getD [], ∃ u c, r = mkContentResult u c) →
      (∀ f ∈ fl.getD [], ∃ u e, f = mkFailedResult u e) →
      ∃ body, display_extract_results (if is_md then "markdown" else "text")
          (mkExtractResponse rs fl rt) = some (body ++ rtSegment is_md rt)) ∧
    (∀ (is_md : Bool) (b : Option String) (rs : Option (List Json)) (rt : Option Int),
      (∀ r ∈ rs.getD [], ∃ u c, r = mkContentResult u c) →
      ∃ body, display_crawl_results (if is_md then "markdown" else "text")
          (mkCrawlResponse b rs rt) = some (body ++ rtSegment is_md rt)) ∧
    (∀ (is_md : Bool) (b : Option String) (rs : Option (List Json)) (rt : Option Int),
      ∃ body, display_map_results (if is_md then "markdown" else "text")
          (mkCrawlResponse b rs rt) = some (body ++ rtSegment is_md rt)) ∧
    (∀ (is_md : Bool) (kf af : Option (List (String × Json))),
      ∃ out, display_usage (if is_md then "markdown" else "text")
          (mkUsageResponse kf af) = some out) ∧
    (∀ is_md : Bool, rtSegment is_md none = [] ∧ ∀ t : Int, rtSegment is_md (some t) ≠ []) := by
  refine ⟨?_, ?_, ?_, ?_, ?_, ?_⟩
  · intro is_md q a rs io rt hshape
    obtain ⟨itemLines, hitems⟩ := flatMapM_total (l := enumFrom 1 (rs.getD []))
      (f := fun p => searchItem is_md p.1 p.2) (by
        intro x hx
        obtain ⟨t, u, c, sc, hr⟩ := hshape x.2 (enumFrom_mem hx)
        show ∃ y, searchItem is_md x.1 x.2 = some y
        rw [hr]
        exact searchItem_total is_md x.1 t u c sc)
    exact shape5 (display_search_eval is_md q a rs io rt itemLines hitems)
  · intro is_md rs fl rt hshape hfshape
    obtain ⟨itemLines, hitems⟩ := flatMapM_total (l := enumFrom 1 (rs.getD []))
      (f := fun p => extractItem is_md p.1 p.2) (by
        intro x hx
        obtain ⟨u, c, hr⟩ := hshape x.2 (enumFrom_mem hx)
        show ∃ y, extractItem is_md x.1 x.2 = some y
        rw [hr]
        exact extractItem_total is_md x.1 u c)
    obtain ⟨flines, hflines⟩ := mapM1_total (l := fl.getD []) (f := failedLine is_md) (by
      intro f hf
      obtain ⟨u, e, hfr⟩ := hfshape f hf
      rw [hfr]
      exact failedLine_total is_md u e)
    exact shape3 (display_extract_eval is_md rs fl rt itemLines flines hitems hflines)
  · intro is_md b rs rt hshape
    obtain ⟨itemLines, hitems⟩ := flatMapM_total (l := enumFrom 1 (rs.getD []))
      (f := fun p => crawlItem is_md p.1 p.2) (by
        intro x hx
        obtain ⟨u, c, hr⟩ := hshape x.2 (enumFrom_mem hx)
        show ∃ y, crawlItem is_md x.1 x.2 = some y
        rw [hr]
        exact crawlItem_total is_md x.1 u c)
    exact shape3 (display_crawl_eval is_md b rs rt itemLines hitems)
  · intro is_md b rs rt
    exact shape2 (display_map_eval is_md b rs rt)
  · intro is_md kf af
    exact ⟨_, display_usage_mk is_md kf af⟩
  · intro is_md
    exact ⟨rfl, fun t => by cases is_md <;> simp [rtSegment]⟩

/-- Witness for C8 at concrete responses. -/
theorem c8_missing_fields_witness :
    (∃ body, display_search_results "text"
        (mkSearchResponse none none (some []) none (some 2)) =
      some (body ++ rtSegment false (some 2))) ∧
    (∃ out, display_usage "text" (mkUsageResponse none none) = some out) :=
  ⟨c8_missing_fields.1 false none none (some []) none (some 2) (by simp),
   c8_missing_fields.2.2.2.2.1 false none none⟩

/-! ## C2 (corrected): empty results -/

/-- Counterexample to C2 as stated: the extract renderer's section header
carries no count at all — rendering an extract Response with an empty
results sequence in text mode emits only the header line
"Extracted Content\n", which contains no character "0" anywhere, hence no
section header with the count "0". -/
theorem c2_counterexample :
    display_extract_results "text" (.obj [("results", .arr [])]) =
      some ["Extracted Content\n"] ∧
    ∀ l ∈ ["Extracted Content\n"], ¬('0' ∈ l.data) := by
  exact ⟨rfl, by decide⟩

/-- C2 (amended): for the search, crawl, and map renderers, in both text and
markdown modes, a Response whose results sequence is empty renders the
section header with the count "0" and no enumerated item lines (the item
loop contributes the empty segment); the extract renderer likewise emits no
item lines but its fixed section header carries no count. -/
theorem c2_empty_results :
    (∀ (is_md : Bool) (q a : Option String) (io : Option (List Json)) (rt : Option Int),
      ∃ out, display_search_results (if is_md then "markdown" else "text")
          (mkSearchResponse q a (some []) io rt) = some out ∧
        (if is_md then "## Results (0)\n" else "Results (0):\n") ∈ out ∧
        flatMapM (fun p => searchItem is_md p.1 p.2) (enumFrom 1 []) = some []) ∧
    (∀ (is_md : Bool) (b : Option String) (rt : Option Int),
      ∃ out, display_crawl_results (if is_md then "markdown" else "text")
          (mkCrawlResponse b (some []) rt) = some out ∧
        (if is_md then "## Pages Crawled (0)\n" else "Pages Crawled (0):\n") ∈ out ∧
        flatMapM (fun p => crawlItem is_md p.1 p.2) (enumFrom 1 []) = some []) ∧
    (∀ (is_md : Bool) (b : Option String) (rt : Option Int),
      ∃ out, display_map_results (if is_md then "markdown" else "text")
          (mkCrawlResponse b (some []) rt) = some out ∧
        (if is_md then "## URLs Found (0)\n" else "URLs Found (0):\n") ∈ out ∧
        ([] : List Json).map (fun url =>
          if is_md then "- " ++ pyStr url else "  " ++ pyStr url) = []) ∧
    (∀ (is_md : Bool) (fl : Option (List Json)) (rt : Option Int),
      (∀ f ∈ fl.getD [], ∃ u e, f = mkFailedResult u e) →
      ∃ out, display_extract_results (if is_md then "markdown" else "text")
          (mkExtractResponse (some []) fl rt) = some out ∧
        (if is_md then "# Extracted Content\n" else "Extracted Content\n") ∈ out ∧
        flatMapM (fun p => extractItem is_md p.1 p.2) (enumFrom 1 []) = some []) := by
  refine ⟨?_, ?_, ?_, ?_⟩
  · intro is_md q a io rt
    refine ⟨_, display_search_eval is_md q a (some []) io rt [] rfl, ?_, rfl⟩
    rw [show toString ((some ([] : List Json)).getD []).length = "0" from rfl]
    cases is_md <;> simp
  · intro is_md b rt
    refine ⟨_, display_crawl_eval is_md b (some []) rt [] rfl, ?_, rfl⟩
    rw [show toString ((some ([] : List Json)).getD []).length = "0" from rfl]
    cases is_md <;> simp
  · intro is_md b rt
    refine ⟨_, display_map_eval is_md b (some []) rt, ?_, rfl⟩
    rw [show toString ((some ([] : List Json)).getD []).length = "0" from rfl]
    cases is_md <;> simp
  · intro is_md fl rt hfshape
    obtain ⟨flines, hflines⟩ := mapM1_total (l := fl.getD []) (f := failedLine is_md) (by
      intro f hf
      obtain ⟨u, e, hfr⟩ := hfshape f hf
      rw [hfr]
      exact failedLine_total is_md u e)
    refine ⟨_, display_extract_eval is_md (some []) fl rt [] flines rfl hflines, ?_, rfl⟩
    cases is_md <;> simp

/-- Witness for C2's amended statement at concrete responses. -/
theorem c2_empty_results_witness :
    ∃ out, display_extract_results "text" (mkExtractResponse (some []) none none) =
        some out ∧ "Extracted Content\n" ∈ out ∧
      flatMapM (fun p => extractItem false p.1 p.2) (enumFrom 1 []) = some [] :=
  c2_empty_results.2.2.2 false none none (by simp)

/-! ## C3 machinery: whitespace and character classification -/

theorem skipWs_cons_not {c : Char} (h : isWs c = false) (s : List Char) :
    skipWs (c :: s) = c :: s := by
  simp [skipWs, h]

theorem skipWs_ws_pre {pre : List Char} (h : wsPre pre) (s : List Char) :
    skipWs (pre ++ s) = skipWs s := by
  induction pre with
  | nil => rfl
  | cons c p ih =>
    have hc : isWs c = true := h c (by simp)
    rw [List.cons_append, show skipWs (c :: (p ++ s)) = skipWs (p ++ s) from by
      simp [skipWs, hc]]
    exact ih fun e he => h e (by simp [he])

theorem wsPre_nil : wsPre [] := fun c hc => absurd hc (List.not_mem_nil c)

theorem wsPre_jsonInd (d : Nat) : wsPre (jsonInd d) := by
  intro c hc
  rw [jsonInd] at hc
  rw [List.eq_of_mem_replicate hc]
  rfl

theorem wsPre_append {p q : List Char} (hp : wsPre p) (hq : wsPre q) : wsPre (p ++ q) := by
  intro c hc
  rcases List.mem_append.mp hc with h | h
  · exact hp c h
  · exact hq c h

theorem wsPre_newline : wsPre ['\n'] := by
  intro c hc
  rw [List.mem_singleton] at hc
  rw [hc]
  rfl

theorem skipWs_pre_cons {pre : List Char} {c : Char} (hpre : wsPre pre)
    (hc : isWs c = false) (t : List Char) : skipWs (pre ++ (c :: t)) = c :: t := by
  rw [skipWs_ws_pre hpre, skipWs_cons_not hc]

theorem char_ne_of_toNat_ne {c c' : Char} (h : c.toNat ≠ c'.toNat) : c ≠ c' :=
  fun he => h (he ▸ rfl)

theorem digVal?_bounds {c : Char} {d : Nat} (h : digVal? c = some d) :
    48 ≤ c.toNat ∧ c.toNat ≤ 57 ∧ d = c.toNat - 48 := by
  unfold digVal? at h
  by_cases hb : 48 ≤ c.toNat ∧ c.toNat ≤ 57
  · rw [if_pos hb] at h
    exact ⟨hb.1, hb.2, (Option.some_inj.mp h).symm⟩
  · rw [if_neg hb] at h
    exact absurd h (by simp)

theorem isWs_false_of_toNat {c : Char} (h1 : c.toNat ≠ 32) (h2 : c.toNat ≠ 10)
    (h3 : c.toNat ≠ 9) (h4 : c.toNat ≠ 13) : isWs c = false := by
  have e1 : (' ' : Char).toNat = 32 := rfl
  have e2 : ('\n' : Char).toNat = 10 := rfl
  have e3 : ('\t' : Char).toNat = 9 := rfl
  have e4 : ('\r' : Char).toNat = 13 := rfl
  unfold isWs
  simp only [decide_eq_false_iff_not]
  push_neg
  exact ⟨char_ne_of_toNat_ne (by omega), char_ne_of_toNat_ne (by omega),
    char_ne_of_toNat_ne (by omega), char_ne_of_toNat_ne (by omega)⟩

theorem digit_head_props {c : Char} {d : Nat} (h : digVal? c = some d) :
    isWs c = false ∧ c ≠ 'n' ∧ c ≠ 't' ∧ c ≠ 'f' ∧ c ≠ '"' ∧ c ≠ '-' ∧ c ≠ '[' ∧
      c ≠ '\x7b' ∧ c ≠ ']' ∧ c ≠ '\x7d' ∧ c ≠ ',' := by
  obtain ⟨h1, h2, _⟩ := digVal?_bounds h
  have e1 : ('n' : Char).toNat = 110 := rfl
  have e2 : ('t' : Char).toNat = 116 := rfl
  have e3 : ('f' : Char).toNat = 102 := rfl
  have e4 : ('"' : Char).toNat = 34 := rfl
  have e5 : ('-' : Char).toNat = 45 := rfl
  have e6 : ('[' : Char).toNat = 91 := rfl
  have e7 : ('\x7b' : Char).toNat = 123 := rfl
  have e8 : (']' : Char).toNat = 93 := rfl
  have e9 : ('\x7d' : Char).toNat = 125 := rfl
  have e10 : (',' : Char).toNat = 44 := rfl
  exact ⟨isWs_false_of_toNat (by omega) (by omega) (by omega) (by omega),
    char_ne_of_toNat_ne (by omega), char_ne_of_toNat_ne (by omega),
    char_ne_of_toNat_ne (by omega), char_ne_of_toNat_ne (by omega),
    char_ne_of_toNat_ne (by omega), char_ne_of_toNat_ne (by omega),
    char_ne_of_toNat_ne (by omega), char_ne_of_toNat_ne (by omega),
    char_ne_of_toNat_ne (by omega), char_ne_of_toNat_ne (by omega)⟩

theorem numStopOk_of_head {v : Json} {r : List Char} (h : headDigit? r = none) :
    numStopOk v r := by
  cases v <;> simp [numStopOk, h]

/-! ## C3 machinery: decimal digits -/

theorem digitChar48_props {d : Nat} (h : d < 10) :
    digVal? (digitChar48 d) = some d ∧ (digitChar48 d).toNat = 48 + d := by
  interval_cases d <;> exact ⟨by decide, by decide⟩

theorem natChars_cons (n : Nat) :
    ∃ d ds, natChars n = digitChar48 d :: ds ∧ d < 10 := by
  induction n using Nat.strong_induction_on with
  | _ n ih =>
    rw [natChars]
    by_cases h : n < 10
    · rw [dif_pos h]
      exact ⟨n, [], rfl, h⟩
    · rw [dif_neg h]
      obtain ⟨d, ds, hds, hd⟩ := ih (n / 10) (Nat.div_lt_self (by omega) (by omega))
      exact ⟨d, ds ++ [digitChar48 (n % 10)], by rw [hds]; rfl, hd⟩

theorem parseDigits_append (n : Nat) : ∀ (acc : Nat) (rest : List Char),
    parseDigits acc (natChars n ++ rest) =
      parseDigits (acc * 10 ^ numDigits n + n) rest := by
  induction n using Nat.strong_induction_on with
  | _ n ih =>
    intro acc rest
    by_cases h : n < 10
    · rw [natChars, dif_pos h, numDigits, dif_pos h]
      rw [List.cons_append, List.nil_append]
      rw [show parseDigits acc (digitChar48 n :: rest) =
        parseDigits (acc * 10 + n) rest from by
          simp [parseDigits, (digitChar48_props h).1]]
      rw [pow_one]
    · rw [natChars, dif_neg h, numDigits, dif_neg h]
      rw [List.append_assoc, List.cons_append, List.nil_append]
      rw [ih (n / 10) (Nat.div_lt_self (by omega) (by omega))]
      rw [show parseDigits (acc * 10 ^ numDigits (n / 10) + n / 10)
          (digitChar48 (n % 10) :: rest) =
        parseDigits ((acc * 10 ^ numDigits (n / 10) + n / 10) * 10 + n % 10) rest from by
          simp [parseDigits, (digitChar48_props (Nat.mod_lt n (by omega))).1]]
      congr 1
      rw [pow_succ]
      have := Nat.div_add_mod n 10
      set P := 10 ^ numDigits (n / 10)
      ring_nf
      omega

theorem parseDigits_stop {acc : Nat} {rest : List Char} (h : headDigit? rest = none) :
    parseDigits acc rest = (acc, rest) := by
  cases rest with
  | nil => rfl
  | cons c r =>
    rw [show headDigit? (c :: r) = digVal? c from rfl] at h
    simp [parseDigits, h]

/-! ## C3 machinery: string escaping round-trip -/

theorem hexVal?_hexDigitChar {d : Nat} (h : d < 16) :
    hexVal? (hexChars.hexDigitChar d) = some d := by
  interval_cases d <;> decide

theorem charFromNat?_toNat (c : Char) : charFromNat? c.toNat = some c := by
  have hv' : c.toNat.isValidChar := by simpa [UInt32.isValidChar] using c.valid
  simp only [charFromNat?, dif_pos hv']
  congr 1

theorem char_eq_of_toNat_eq {c c' : Char} (h : c.toNat = c'.toNat) : c = c' := by
  have h1 := charFromNat?_toNat c
  have h2 := charFromNat?_toNat c'
  rw [h] at h1
  rw [h1] at h2
  exact Option.some_inj.mp h2


theorem parseStrF_lit {c : Char} (h1 : c ≠ '"') (h2 : c ≠ '\\') (fuel : Nat)
    (rest : List Char) :
    parseStrF (fuel + 1) (c :: rest) = match parseStrF fuel rest with
      | some (cs, r) => some (c :: cs, r)
      | none => none := by
  conv_lhs => unfold parseStrF
  simp only []
  rw [if_neg h1, if_neg h2]

theorem parseStrF_esc {rest : List Char} {ch : Char} {r3 : List Char} (fuel : Nat)
    (h : parseEscape rest = some (ch, r3)) :
    parseStrF (fuel + 1) ('\\' :: rest) = match parseStrF fuel r3 with
      | some (cs, r) => some (ch :: cs, r)
      | none => none := by
  conv_lhs => unfold parseStrF
  simp [h]

theorem parseEscape_code {x ch : Char} (hxu : x ≠ 'u') (hc : escCode? x = some ch)
    (t : List Char) : parseEscape (x :: t) = some (ch, t) := by
  simp only [parseEscape]
  rw [if_neg hxu, hc]

theorem parseEscape_u (t : List Char) : parseEscape ('u' :: t) = parseU t := by
  simp [parseEscape]

theorem hex4_hexChars {n : Nat} (h : n < 65536) :
    hex4 (hexChars.hexDigitChar (n / 4096 % 16)) (hexChars.hexDigitChar (n / 256 % 16))
      (hexChars.hexDigitChar (n / 16 % 16)) (hexChars.hexDigitChar (n % 16)) = some n := by
  simp only [hex4]
  rw [hexVal?_hexDigitChar (Nat.mod_lt _ (by omega)),
    hexVal?_hexDigitChar (Nat.mod_lt _ (by omega)),
    hexVal?_hexDigitChar (Nat.mod_lt _ (by omega)),
    hexVal?_hexDigitChar (Nat.mod_lt _ (by omega))]
  simp only []
  congr 1
  omega

theorem parseU_single (c : Char) (h9 : c.toNat < 65536) (tail : List Char) :
    parseU (hexChars c.toNat ++ tail) = some (c, tail) := by
  have hv : c.toNat < 55296 ∨ 57343 < c.toNat ∧ c.toNat < 1114112 := by
    simpa [UInt32.isValidChar, Nat.isValidChar] using c.valid
  rw [show hexChars c.toNat ++ tail =
    hexChars.hexDigitChar (c.toNat / 4096 % 16) :: hexChars.hexDigitChar (c.toNat / 256 % 16) ::
    hexChars.hexDigitChar (c.toNat / 16 % 16) :: hexChars.hexDigitChar (c.toNat % 16) :: tail
    from rfl]
  simp only [parseU]
  rw [hex4_hexChars h9]
  simp only []
  rw [if_neg (show ¬(55296 ≤ c.toNat ∧ c.toNat ≤ 56319) from by omega)]
  rw [charFromNat?_toNat]

theorem parseU_pair_gen (hi lo : Nat) (h1 : hi < 65536) (h2 : lo < 65536)
    (h3 : 55296 ≤ hi) (h4 : hi ≤ 56319) (h5 : 56320 ≤ lo) (h6 : lo ≤ 57343)
    (tail : List Char) :
    parseU (hexChars hi ++ ('\\' :: 'u' :: (hexChars lo ++ tail))) =
      (match charFromNat? (65536 + (hi - 55296) * 1024 + (lo - 56320)) with
        | some ch => some (ch, tail)
        | none => none) := by
  rw [show hexChars hi ++ ('\\' :: 'u' :: (hexChars lo ++ tail)) =
    hexChars.hexDigitChar (hi / 4096 % 16) :: hexChars.hexDigitChar (hi / 256 % 16) ::
    hexChars.hexDigitChar (hi / 16 % 16) :: hexChars.hexDigitChar (hi % 16) ::
    '\\' :: 'u' :: hexChars.hexDigitChar (lo / 4096 % 16) ::
    hexChars.hexDigitChar (lo / 256 % 16) :: hexChars.hexDigitChar (lo / 16 % 16) ::
    hexChars.hexDigitChar (lo % 16) :: tail from rfl]
  simp only [parseU]
  rw [hex4_hexChars h1]
  simp only []
  rw [if_pos ⟨h3, h4⟩]
  show (if ('\\' : Char) = '\\' ∧ ('u' : Char) = 'u' then
      match hex4 (hexChars.hexDigitChar (lo / 4096 % 16)) (hexChars.hexDigitChar (lo / 256 % 16))
        (hexChars.hexDigitChar (lo / 16 % 16)) (hexChars.hexDigitChar (lo % 16)) with
      | some m =>
        if 56320 ≤ m ∧ m ≤ 57343 then
          match charFromNat? (65536 + (hi - 55296) * 1024 + (m - 56320)) with
          | some ch => some (ch, tail)
          | none => none
        else none
      | none => none
    else none) = _
  rw [if_pos (show ('\\' : Char) = '\\' ∧ ('u' : Char) = 'u' from ⟨rfl, rfl⟩)]
  rw [hex4_hexChars h2]
  simp only []
  rw [if_pos ⟨h5, h6⟩]

theorem parseU_pair (c : Char) (h9 : 65536 ≤ c.toNat) (tail : List Char) :
    parseU (hexChars (55296 + (c.toNat - 65536) / 1024) ++
      ('\\' :: 'u' :: (hexChars (56320 + (c.toNat - 65536) % 1024) ++ tail))) =
      some (c, tail) := by
  have hv : c.toNat < 55296 ∨ 57343 < c.toNat ∧ c.toNat < 1114112 := by
    simpa [UInt32.isValidChar, Nat.isValidChar] using c.valid
  rw [parseU_pair_gen _ _ (by omega) (by omega) (by omega) (by omega) (by omega)
    (by omega) tail]
  rw [show 65536 + (55296 + (c.toNat - 65536) / 1024 - 55296) * 1024 +
      (56320 + (c.toNat - 65536) % 1024 - 56320) = c.toNat from by omega]
  rw [charFromNat?_toNat]

theorem escChar_length_pos (c : Char) : 0 < (escChar c).length := by
  unfold escChar
  split_ifs <;> simp [hexChars]

theorem parseStrF_escBody : ∀ (s : List Char) (fuel : Nat) (rest : List Char),
    (escBody s ++ '"' :: rest).length < fuel →
    parseStrF fuel (escBody s ++ '"' :: rest) = some (s, rest) := by
  intro s
  induction s with
  | nil =>
    intro fuel rest hlen
    rcases fuel with _ | f
    · simp at hlen
    · rfl
  | cons c cs ih =>
    intro fuel rest hlen
    rcases fuel with _ | f
    · simp at hlen
    rw [show escBody (c :: cs) = escChar c ++ escBody cs from rfl, List.append_assoc] at *
    have hclen := escChar_length_pos c
    have htail : (escBody cs ++ '"' :: rest).length < f := by
      simp only [List.length_append, List.length_cons] at hlen ⊢
      omega
    have hv : c.toNat < 55296 ∨ 57343 < c.toNat ∧ c.toNat < 1114112 := by
      simpa [UInt32.isValidChar, Nat.isValidChar] using c.valid
    by_cases h1 : c = '"'
    · subst h1
      rw [show escChar '"' = ['\\', '"'] from rfl, List.cons_append, List.cons_append,
        List.nil_append]
      rw [parseStrF_esc f (parseEscape_code (by decide) (show escCode? '"' = some '"'
        from rfl) _), ih f rest htail]
    by_cases h2 : c = '\\'
    · subst h2
      rw [show escChar '\\' = ['\\', '\\'] from rfl, List.cons_append, List.cons_append,
        List.nil_append]
      rw [parseStrF_esc f (parseEscape_code (by decide) (show escCode? '\\' = some '\\'
        from rfl) _), ih f rest htail]
    by_cases h3 : c = '\n'
    · subst h3
      rw [show escChar '\n' = ['\\', 'n'] from rfl, List.cons_append, List.cons_append,
        List.nil_append]
      rw [parseStrF_esc f (parseEscape_code (by decide) (show escCode? 'n' = some '\n'
        from rfl) _), ih f rest htail]
    by_cases h4 : c = '\r'
    · subst h4
      rw [show escChar '\r' = ['\\', 'r'] from rfl, List.cons_append, List.cons_append,
        List.nil_append]
      rw [parseStrF_esc f (parseEscape_code (by decide) (show escCode? 'r' = some '\r'
        from rfl) _), ih f rest htail]
    by_cases h5 : c = '\t'
    · subst h5
      rw [show escChar '\t' = ['\\', 't'] from rfl, List.cons_append, List.cons_append,
        List.nil_append]
      rw [parseStrF_esc f (parseEscape_code (by decide) (show escCode? 't' = some '\t'
        from rfl) _), ih f rest htail]
    by_cases h6 : c.toNat = 8
    · have hc : c = Char.ofNat 8 := char_eq_of_toNat_eq (by rw [h6]; decide)
      subst hc
      rw [show escChar (Char.ofNat 8) = ['\\', 'b'] from rfl, List.cons_append,
        List.cons_append, List.nil_append]
      rw [parseStrF_esc f (parseEscape_code (by decide)
        (show escCode? 'b' = some (Char.ofNat 8) from rfl) _), ih f rest htail]
    by_cases h7 : c.toNat = 12
    · have hc : c = Char.ofNat 12 := char_eq_of_toNat_eq (by rw [h7]; decide)
      subst hc
      rw [show escChar (Char.ofNat 12) = ['\\', 'f'] from rfl, List.cons_append,
        List.cons_append, List.nil_append]
      rw [parseStrF_esc f (parseEscape_code (by decide)
        (show escCode? 'f' = some (Char.ofNat 12) from rfl) _), ih f rest htail]
    by_cases h8 : c.toNat < 32 ∨ 126 < c.toNat
    · by_cases h9 : c.toNat < 65536
      · rw [show escChar c = '\\' :: 'u' :: hexChars c.toNat from by
          unfold escChar
          rw [if_neg h1, if_neg h2, if_neg h3, if_neg h4, if_neg h5, if_neg h6, if_neg h7,
            if_pos h8, if_pos h9]]
        rw [List.cons_append, List.cons_append]
        rw [parseStrF_esc f (show parseEscape
            ('u' :: (hexChars c.toNat ++ (escBody cs ++ '"' :: rest))) = some (c, _) from by
          rw [parseEscape_u, parseU_single c h9]), ih f rest htail]
      · rw [show escChar c =
            ('\\' :: 'u' :: hexChars (55296 + (c.toNat - 65536) / 1024)) ++
              ('\\' :: 'u' :: hexChars (56320 + (c.toNat - 65536) % 1024)) from by
          unfold escChar
          rw [if_neg h1, if_neg h2, if_neg h3, if_neg h4, if_neg h5, if_neg h6, if_neg h7,
            if_pos h8, if_neg h9]]
        rw [List.append_assoc, List.cons_append, List.cons_append, List.cons_append,
          List.cons_append]
        rw [parseStrF_esc f (show parseEscape
            ('u' :: (hexChars (55296 + (c.toNat - 65536) / 1024) ++
              ('\\' :: 'u' :: (hexChars (56320 + (c.toNat - 65536) % 1024) ++
                (escBody cs ++ '"' :: rest))))) = some (c, _) from by
          rw [parseEscape_u, parseU_pair c (by omega)]), ih f rest htail]
    · rw [show escChar c = [c] from by
        unfold escChar
        rw [if_neg h1, if_neg h2, if_neg h3, if_neg h4, if_neg h5, if_neg h6, if_neg h7,
          if_neg h8]]
      rw [List.cons_append, List.nil_append]
      rw [parseStrF_lit h1 h2 f, ih f rest htail]

theorem parseStr_escBody (s rest : List Char) :
    parseStr (escBody s ++ '"' :: rest) = some (s, rest) :=
  parseStrF_escBody s _ rest (Nat.lt_succ_self _)

/-! ## C3 machinery: shape of printed values -/

theorem headIs_cons_ne {c x : Char} (h : c ≠ x) (l : List Char) :
    headIs (c :: l) x = false := by
  simp [headIs, h]

theorem headIs_cons_self (c : Char) (l : List Char) : headIs (c :: l) c = true := by
  simp [headIs]

theorem printJson_head (d : Nat) (v : Json) :
    ∃ c cs, printJson d v = c :: cs ∧ isWs c = false ∧ c ≠ ']' ∧ c ≠ '\x7d' ∧ c ≠ ',' := by
  cases v with
  | null => exact ⟨'n', _, rfl, by decide, by decide, by decide, by decide⟩
  | bool b =>
    cases b
    · exact ⟨'f', _, rfl, by decide, by decide, by decide, by decide⟩
    · exact ⟨'t', _, rfl, by decide, by decide, by decide, by decide⟩
  | num n =>
    cases n with
    | ofNat m =>
      obtain ⟨d', ds, hds, hd⟩ := natChars_cons m
      obtain ⟨hws, _, _, _, _, _, _, _, hne1, hne2, hne3⟩ :=
        digit_head_props (digitChar48_props hd).1
      exact ⟨digitChar48 d', ds, by rw [show printJson d (.num (.ofNat m)) = natChars m
        from rfl, hds], hws, hne1, hne2, hne3⟩
    | negSucc m =>
      exact ⟨'-', natChars (m + 1), rfl, by decide, by decide, by decide, by decide⟩
  | str s => exact ⟨'"', _, rfl, by decide, by decide, by decide, by decide⟩
  | arr xs =>
    cases xs
    · exact ⟨'[', _, rfl, by decide, by decide, by decide, by decide⟩
    · exact ⟨'[', _, rfl, by decide, by decide, by decide, by decide⟩
  | obj kvs =>
    cases kvs
    · exact ⟨'\x7b', _, rfl, by decide, by decide, by decide, by decide⟩
    · exact ⟨'\x7b', _, rfl, by decide, by decide, by decide, by decide⟩

theorem printJson_length_pos (d : Nat) (v : Json) : 0 < (printJson d v).length := by
  obtain ⟨c, cs, h, _⟩ := printJson_head d v
  rw [h]
  simp

theorem wsPre_space : wsPre [' '] := by
  intro c hc
  rw [List.mem_singleton] at hc
  rw [hc]
  rfl

theorem parse_print_all : ∀ fuel : Nat,
    (∀ (d : Nat) (v : Json) (pre rest : List Char), wsPre pre →
      (printJson d v).length < fuel → numStopOk v rest →
      parseVal fuel (pre ++ (printJson d v ++ rest)) = some (v, rest)) ∧
    (∀ (d dd : Nat) (xs : List Json) (pre rest : List Char), wsPre pre → xs ≠ [] →
      (printItems dd xs).length < fuel →
      parseItems fuel (pre ++ (printItems dd xs ++ '\n' :: (jsonInd d ++ ']' :: rest))) =
        some (xs, rest)) ∧
    (∀ (d dd : Nat) (kvs : List (String × Json)) (pre rest : List Char), wsPre pre →
      kvs ≠ [] → (printFields dd kvs).length < fuel →
      parseFields fuel
          (pre ++ (printFields dd kvs ++ '\n' :: (jsonInd d ++ '\x7d' :: rest))) =
        some (kvs, rest)) := by
  intro fuel
  induction fuel with
  | zero =>
    exact ⟨fun d v pre rest _ hlen _ => absurd hlen (Nat.not_lt_zero _),
      fun d dd xs pre rest _ _ hlen => absurd hlen (Nat.not_lt_zero _),
      fun d dd kvs pre rest _ _ hlen => absurd hlen (Nat.not_lt_zero _)⟩
  | succ f ih =>
    obtain ⟨ihP, ihQ, ihR⟩ := ih
    have hP : ∀ (d : Nat) (v : Json) (pre rest : List Char), wsPre pre →
        (printJson d v).length < f + 1 → numStopOk v rest →
        parseVal (f + 1) (pre ++ (printJson d v ++ rest)) = some (v, rest) := by
      intro d v pre rest hpre hlen hstop
      cases v with
      | null =>
        show parseVal (f + 1) (pre ++ ('n' :: 'u' :: 'l' :: 'l' :: rest)) = _
        unfold parseVal
        rw [skipWs_pre_cons hpre (by decide)]
        simp [List.isPrefixOf]
      | bool b =>
        cases b
        · show parseVal (f + 1) (pre ++ ('f' :: 'a' :: 'l' :: 's' :: 'e' :: rest)) = _
          unfold parseVal
          rw [skipWs_pre_cons hpre (by decide)]
          simp [List.isPrefixOf]
        · show parseVal (f + 1) (pre ++ ('t' :: 'r' :: 'u' :: 'e' :: rest)) = _
          unfold parseVal
          rw [skipWs_pre_cons hpre (by decide)]
          simp [List.isPrefixOf]
      | num n =>
        cases n with
        | ofNat m =>
          obtain ⟨d', ds, hds, hd⟩ := natChars_cons m
          have hdig := (digitChar48_props hd).1
          obtain ⟨hws, hn, ht, hf, hq, hm, hlb, hob, _, _, _⟩ := digit_head_props hdig
          have hpd : parseDigits 0 (digitChar48 d' :: (ds ++ rest)) = (m, rest) := by
            rw [show digitChar48 d' :: (ds ++ rest) = natChars m ++ rest from by
              rw [hds]; rfl]
            rw [parseDigits_append m 0 rest]
            rw [show 0 * 10 ^ numDigits m + m = m from by omega]
            exact parseDigits_stop hstop
          rw [show pre ++ (printJson d (.num (.ofNat m)) ++ rest) =
            pre ++ (digitChar48 d' :: (ds ++ rest)) from by
              rw [show printJson d (.num (.ofNat m)) = natChars m from rfl, hds]; rfl]
          unfold parseVal
          rw [skipWs_pre_cons hpre hws]
          simp [hn, ht, hf, hq, hm, hlb, hob, hdig, hpd]
        | negSucc m =>
          obtain ⟨d', ds, hds, hd⟩ := natChars_cons (m + 1)
          have hdig := (digitChar48_props hd).1
          have hpd : parseDigits 0 (digitChar48 d' :: (ds ++ rest)) = (m + 1, rest) := by
            rw [show digitChar48 d' :: (ds ++ rest) = natChars (m + 1) ++ rest from by
              rw [hds]; rfl]
            rw [parseDigits_append (m + 1) 0 rest]
            rw [show 0 * 10 ^ numDigits (m + 1) + (m + 1) = m + 1 from by omega]
            exact parseDigits_stop hstop
          rw [show pre ++ (printJson d (.num (.negSucc m)) ++ rest) =
            pre ++ ('-' :: (digitChar48 d' :: (ds ++ rest))) from by
              rw [show printJson d (.num (.negSucc m)) = '-' :: natChars (m + 1) from rfl,
                hds]; rfl]
          unfold parseVal
          rw [skipWs_pre_cons hpre (by decide)]
          simp [hdig, hpd, Int.negSucc_eq]
      | str s =>
        rw [show pre ++ (printJson d (.str s) ++ rest) =
          pre ++ ('"' :: (escBody s.data ++ '"' :: rest)) from by
            rw [show printJson d (.str s) = '"' :: (escBody s.data ++ ['"']) from rfl]
            simp]
        unfold parseVal
        rw [skipWs_pre_cons hpre (by decide)]
        simp [parseStr_escBody]
      | arr xs =>
        cases xs with
        | nil =>
          show parseVal (f + 1) (pre ++ ('[' :: ']' :: rest)) = _
          unfold parseVal
          rw [skipWs_pre_cons hpre (by decide)]
          simp [skipWs_cons_not (show isWs ']' = false from by decide), headIs]
        | cons x xs' =>
          obtain ⟨c0, cs0, hx, hxw, hxne1, hxne2, hxne3⟩ := printJson_head (d + 1) x
          have hlen' : (printItems (d + 1) (x :: xs')).length < f := by
            rw [show printJson d (.arr (x :: xs')) = '[' :: '\n' ::
              (printItems (d + 1) (x :: xs') ++ '\n' :: (jsonInd d ++ [']'])) from rfl]
              at hlen
            simp only [List.length_append, List.length_cons, jsonInd,
              List.length_replicate] at hlen ⊢
            omega
          rw [show pre ++ (printJson d (.arr (x :: xs')) ++ rest) =
            pre ++ ('[' :: ('\n' :: (printItems (d + 1) (x :: xs') ++
              '\n' :: (jsonInd d ++ ']' :: rest)))) from by
              rw [show printJson d (.arr (x :: xs')) = '[' :: '\n' ::
                (printItems (d + 1) (x :: xs') ++ '\n' :: (jsonInd d ++ [']'])) from rfl]
              simp]
          unfold parseVal
          rw [skipWs_pre_cons hpre (by decide)]
          have hsk : skipWs ('\n' :: (printItems (d + 1) (x :: xs') ++
              '\n' :: (jsonInd d ++ ']' :: rest))) = c0 :: (cs0 ++
              ((if xs'.isEmpty then [] else [',', '\n']) ++ printItems (d + 1) xs' ++
                '\n' :: (jsonInd d ++ ']' :: rest))) := by
            rw [show '\n' :: (printItems (d + 1) (x :: xs') ++
              '\n' :: (jsonInd d ++ ']' :: rest)) =
              ('\n' :: jsonInd (d + 1)) ++ (c0 :: (cs0 ++
                ((if xs'.isEmpty then [] else [',', '\n']) ++ printItems (d + 1) xs' ++
                  '\n' :: (jsonInd d ++ ']' :: rest)))) from by
                rw [show printItems (d + 1) (x :: xs') = jsonInd (d + 1) ++
                  (printJson (d + 1) x ++
                    (if xs'.isEmpty then [] else [',', '\n']) ++
                    printItems (d + 1) xs') from rfl, hx]
                simp]
            rw [show ('\n' :: jsonInd (d + 1)) ++ (c0 :: (cs0 ++
              ((if xs'.isEmpty then [] else [',', '\n']) ++ printItems (d + 1) xs' ++
                '\n' :: (jsonInd d ++ ']' :: rest)))) = (['\n'] ++ jsonInd (d + 1)) ++
              (c0 :: (cs0 ++ ((if xs'.isEmpty then [] else [',', '\n']) ++
                printItems (d + 1) xs' ++ '\n' :: (jsonInd d ++ ']' :: rest)))) from rfl]
            exact skipWs_pre_cons (wsPre_append wsPre_newline (wsPre_jsonInd (d + 1))) hxw _
          simp only []
          rw [if_neg (by decide), if_neg (by decide), if_neg (by decide),
            if_neg (by decide), if_neg (by decide), if_pos trivial]
          rw [hsk]
          rw [show headIs (c0 :: (cs0 ++ ((if xs'.isEmpty then [] else [',', '\n']) ++
            printItems (d + 1) xs' ++ '\n' :: (jsonInd d ++ ']' :: rest)))) ']' = false
            from headIs_cons_ne hxne1 _]
          simp only [Bool.false_eq_true, if_false]
          rw [show '\n' :: (printItems (d + 1) (x :: xs') ++
            '\n' :: (jsonInd d ++ ']' :: rest)) = ['\n'] ++ (printItems (d + 1) (x :: xs')
            ++ '\n' :: (jsonInd d ++ ']' :: rest)) from rfl]
          rw [ihQ d (d + 1) (x :: xs') ['\n'] rest wsPre_newline (by simp) hlen']
      | obj kvs =>
        cases kvs with
        | nil =>
          show parseVal (f + 1) (pre ++ ('\x7b' :: '\x7d' :: rest)) = _
          unfold parseVal
          rw [skipWs_pre_cons hpre (by decide)]
          simp [skipWs_cons_not (show isWs '\x7d' = false from by decide), headIs]
        | cons kv kvs' =>
          obtain ⟨k, v⟩ := kv
          have hlen' : (printFields (d + 1) ((k, v) :: kvs')).length < f := by
            rw [show printJson d (.obj ((k, v) :: kvs')) = '\x7b' :: '\n' ::
              (printFields (d + 1) ((k, v) :: kvs') ++ '\n' :: (jsonInd d ++ ['\x7d']))
              from rfl] at hlen
            simp only [List.length_append, List.length_cons, jsonInd,
              List.length_replicate] at hlen ⊢
            omega
          rw [show pre ++ (printJson d (.obj ((k, v) :: kvs')) ++ rest) =
            pre ++ ('\x7b' :: ('\n' :: (printFields (d + 1) ((k, v) :: kvs') ++
              '\n' :: (jsonInd d ++ '\x7d' :: rest)))) from by
              rw [show printJson d (.obj ((k, v) :: kvs')) = '\x7b' :: '\n' ::
                (printFields (d + 1) ((k, v) :: kvs') ++ '\n' :: (jsonInd d ++ ['\x7d']))
                from rfl]
              simp]
          unfold parseVal
          rw [skipWs_pre_cons hpre (by decide)]
          have hsk : skipWs ('\n' :: (printFields (d + 1) ((k, v) :: kvs') ++
              '\n' :: (jsonInd d ++ '\x7d' :: rest))) = '"' :: ((escBody k.data ++
              '"' :: (':' :: ' ' :: (printJson (d + 1) v ++
                ((if kvs'.isEmpty then [] else [',', '\n']) ++ printFields (d + 1) kvs' ++
                  '\n' :: (jsonInd d ++ '\x7d' :: rest)))))) := by
            rw [show '\n' :: (printFields (d + 1) ((k, v) :: kvs') ++
              '\n' :: (jsonInd d ++ '\x7d' :: rest)) =
              (['\n'] ++ jsonInd (d + 1)) ++ ('"' :: ((escBody k.data ++
                '"' :: (':' :: ' ' :: (printJson (d + 1) v ++
                  ((if kvs'.isEmpty then [] else [',', '\n']) ++
                    printFields (d + 1) kvs' ++
                    '\n' :: (jsonInd d ++ '\x7d' :: rest))))))) from by
                rw [show printFields (d + 1) ((k, v) :: kvs') = jsonInd (d + 1) ++
                  (escStr k.data ++ ':' :: ' ' :: (printJson (d + 1) v ++
                    (if kvs'.isEmpty then [] else [',', '\n']) ++
                    printFields (d + 1) kvs')) from rfl,
                  show escStr k.data = '"' :: (escBody k.data ++ ['"']) from rfl]
                simp]
            exact skipWs_pre_cons (wsPre_append wsPre_newline (wsPre_jsonInd (d + 1)))
              (by decide) _
          simp only []
          rw [if_neg (by decide), if_neg (by decide), if_neg (by decide),
            if_neg (by decide), if_neg (by decide), if_neg (by decide), if_pos trivial]
          rw [hsk]
          rw [show headIs ('"' :: ((escBody k.data ++ '"' :: (':' :: ' ' ::
            (printJson (d + 1) v ++ ((if kvs'.isEmpty then [] else [',', '\n']) ++
              printFields (d + 1) kvs' ++
              '\n' :: (jsonInd d ++ '\x7d' :: rest))))))) '\x7d' = false
            from headIs_cons_ne (by decide) _]
          simp only [Bool.false_eq_true, if_false]
          rw [show '\n' :: (printFields (d + 1) ((k, v) :: kvs') ++
            '\n' :: (jsonInd d ++ '\x7d' :: rest)) = ['\n'] ++
            (printFields (d + 1) ((k, v) :: kvs') ++
              '\n' :: (jsonInd d ++ '\x7d' :: rest)) from rfl]
          rw [ihR d (d + 1) ((k, v) :: kvs') ['\n'] rest wsPre_newline (by simp) hlen']
    refine ⟨hP, ?_, ?_⟩
    · intro d dd xs pre rest hpre hne hlen
      cases xs with
      | nil => exact absurd rfl hne
      | cons x xs' =>
        cases xs' with
        | nil =>
          have hlenx : (printJson dd x).length < f + 1 := by
            rw [show printItems dd [x] = jsonInd dd ++ (printJson dd x ++ [] ++ [])
              from rfl] at hlen
            simp only [List.length_append, List.length_nil] at hlen
            omega
          rw [show pre ++ (printItems dd [x] ++ '\n' :: (jsonInd d ++ ']' :: rest)) =
            (pre ++ jsonInd dd) ++ (printJson dd x ++
              ('\n' :: (jsonInd d ++ ']' :: rest))) from by
              rw [show printItems dd [x] = jsonInd dd ++ (printJson dd x ++ [] ++ [])
                from rfl]
              simp]
          unfold parseItems
          rw [hP dd x (pre ++ jsonInd dd) ('\n' :: (jsonInd d ++ ']' :: rest))
            (wsPre_append hpre (wsPre_jsonInd dd)) hlenx (numStopOk_of_head rfl)]
          simp only []
          rw [show skipWs ('\n' :: (jsonInd d ++ ']' :: rest)) = ']' :: rest from by
            rw [show '\n' :: (jsonInd d ++ ']' :: rest) =
              (['\n'] ++ jsonInd d) ++ (']' :: rest) from by simp]
            exact skipWs_pre_cons (wsPre_append wsPre_newline (wsPre_jsonInd d))
              (by decide) _]
          rw [headIs_cons_ne (show (']' : Char) ≠ ',' from by decide) rest,
            headIs_cons_self ']' rest]
          simp
        | cons y ys =>
          have hposx := printJson_length_pos dd x
          have hlenx : (printJson dd x).length < f + 1 := by
            rw [show printItems dd (x :: y :: ys) = jsonInd dd ++ (printJson dd x ++
              [',', '\n'] ++ printItems dd (y :: ys)) from rfl] at hlen
            simp only [List.length_append, List.length_cons, List.length_nil] at hlen
            omega
          have hlen2 : (printItems dd (y :: ys)).length < f := by
            rw [show printItems dd (x :: y :: ys) = jsonInd dd ++ (printJson dd x ++
              [',', '\n'] ++ printItems dd (y :: ys)) from rfl] at hlen
            simp only [List.length_append, List.length_cons, List.length_nil] at hlen
            omega
          rw [show pre ++ (printItems dd (x :: y :: ys) ++
            '\n' :: (jsonInd d ++ ']' :: rest)) =
            (pre ++ jsonInd dd) ++ (printJson dd x ++
              (',' :: '\n' :: (printItems dd (y :: ys) ++
                '\n' :: (jsonInd d ++ ']' :: rest)))) from by
              rw [show printItems dd (x :: y :: ys) = jsonInd dd ++ (printJson dd x ++
                [',', '\n'] ++ printItems dd (y :: ys)) from rfl]
              simp]
          unfold parseItems
          rw [hP dd x (pre ++ jsonInd dd) (',' :: '\n' :: (printItems dd (y :: ys) ++
            '\n' :: (jsonInd d ++ ']' :: rest)))
            (wsPre_append hpre (wsPre_jsonInd dd)) hlenx (numStopOk_of_head rfl)]
          simp only []
          rw [skipWs_cons_not (by decide)]
          rw [headIs_cons_self ',']
          simp only [if_true, List.tail_cons]
          rw [show ('\n' :: (printItems dd (y :: ys) ++
            '\n' :: (jsonInd d ++ ']' :: rest))) = ['\n'] ++ (printItems dd (y :: ys) ++
            '\n' :: (jsonInd d ++ ']' :: rest)) from rfl]
          rw [ihQ d dd (y :: ys) ['\n'] rest wsPre_newline (by simp) hlen2]
    · intro d dd kvs pre rest hpre hne hlen
      cases kvs with
      | nil => exact absurd rfl hne
      | cons kv kvs' =>
        obtain ⟨k, v⟩ := kv
        have hposv := printJson_length_pos dd v
        cases kvs' with
        | nil =>
          have hlenv : (printJson dd v).length < f + 1 := by
            rw [show printFields dd [(k, v)] = jsonInd dd ++ (escStr k.data ++
              ':' :: ' ' :: (printJson dd v ++ [] ++ [])) from rfl,
              show escStr k.data = '"' :: (escBody k.data ++ ['"']) from rfl] at hlen
            simp only [List.length_append, List.length_cons, List.length_nil] at hlen
            omega
          rw [show pre ++ (printFields dd [(k, v)] ++
            '\n' :: (jsonInd d ++ '\x7d' :: rest)) =
            (pre ++ jsonInd dd) ++ ('"' :: (escBody k.data ++ '"' :: (':' :: ' ' ::
              (printJson dd v ++ ('\n' :: (jsonInd d ++ '\x7d' :: rest)))))) from by
              rw [show printFields dd [(k, v)] = jsonInd dd ++ (escStr k.data ++
                ':' :: ' ' :: (printJson dd v ++ [] ++ [])) from rfl,
                show escStr k.data = '"' :: (escBody k.data ++ ['"']) from rfl]
              simp]
          unfold parseFields
          simp only []
          rw [skipWs_pre_cons (wsPre_append hpre (wsPre_jsonInd dd)) (by decide)]
          rw [headIs_cons_self '"']
          simp only [if_true, List.tail_cons]
          rw [parseStr_escBody k.data (':' :: ' ' ::
            (printJson dd v ++ ('\n' :: (jsonInd d ++ '\x7d' :: rest))))]
          simp only []
          rw [skipWs_cons_not (by decide)]
          rw [headIs_cons_self ':']
          simp only [if_true, List.tail_cons]
          rw [show (' ' :: (printJson dd v ++ ('\n' :: (jsonInd d ++ '\x7d' :: rest))))
            = [' '] ++ (printJson dd v ++ ('\n' :: (jsonInd d ++ '\x7d' :: rest)))
            from rfl]
          rw [hP dd v [' '] ('\n' :: (jsonInd d ++ '\x7d' :: rest)) wsPre_space hlenv
            (numStopOk_of_head rfl)]
          simp only []
          rw [show skipWs ('\n' :: (jsonInd d ++ '\x7d' :: rest)) = '\x7d' :: rest
            from by
              rw [show '\n' :: (jsonInd d ++ '\x7d' :: rest) =
                (['\n'] ++ jsonInd d) ++ ('\x7d' :: rest) from by simp]
              exact skipWs_pre_cons (wsPre_append wsPre_newline (wsPre_jsonInd d))
                (by decide) _]
          rw [headIs_cons_ne (show ('\x7d' : Char) ≠ ',' from by decide) rest,
            headIs_cons_self '\x7d' rest]
          simp
        | cons kv2 kvs'' =>
          have hlenv : (printJson dd v).length < f + 1 := by
            rw [show printFields dd ((k, v) :: kv2 :: kvs'') = jsonInd dd ++
              (escStr k.data ++ ':' :: ' ' :: (printJson dd v ++ [',', '\n'] ++
                printFields dd (kv2 :: kvs''))) from rfl,
              show escStr k.data = '"' :: (escBody k.data ++ ['"']) from rfl] at hlen
            simp only [List.length_append, List.length_cons, List.length_nil] at hlen
            omega
          have hlen2 : (printFields dd (kv2 :: kvs'')).length < f := by
            rw [show printFields dd ((k, v) :: kv2 :: kvs'') = jsonInd dd ++
              (escStr k.data ++ ':' :: ' ' :: (printJson dd v ++ [',', '\n'] ++
                printFields dd (kv2 :: kvs''))) from rfl,
              show escStr k.data = '"' :: (escBody k.data ++ ['"']) from rfl] at hlen
            simp only [List.length_append, List.length_cons, List.length_nil] at hlen
            omega
          rw [show pre ++ (printFields dd ((k, v) :: kv2 :: kvs'') ++
            '\n' :: (jsonInd d ++ '\x7d' :: rest)) =
            (pre ++ jsonInd dd) ++ ('"' :: (escBody k.data ++ '"' :: (':' :: ' ' ::
              (printJson dd v ++ (',' :: '\n' :: (printFields dd (kv2 :: kvs'') ++
                '\n' :: (jsonInd d ++ '\x7d' :: rest))))))) from by
              rw [show printFields dd ((k, v) :: kv2 :: kvs'') = jsonInd dd ++
                (escStr k.data ++ ':' :: ' ' :: (printJson dd v ++ [',', '\n'] ++
                  printFields dd (kv2 :: kvs''))) from rfl,
                show escStr k.data = '"' :: (escBody k.data ++ ['"']) from rfl]
              simp]
          unfold parseFields
          simp only []
          rw [skipWs_pre_cons (wsPre_append hpre (wsPre_jsonInd dd)) (by decide)]
          rw [headIs_cons_self '"']
          simp only [if_true, List.tail_cons]
          rw [parseStr_escBody k.data (':' :: ' ' ::
            (printJson dd v ++ (',' :: '\n' :: (printFields dd (kv2 :: kvs'') ++
              '\n' :: (jsonInd d ++ '\x7d' :: rest)))))]
          simp only []
          rw [skipWs_cons_not (by decide)]
          rw [headIs_cons_self ':']
          simp only [if_true, List.tail_cons]
          rw [show (' ' :: (printJson dd v ++ (',' :: '\n' ::
            (printFields dd (kv2 :: kvs'') ++
              '\n' :: (jsonInd d ++ '\x7d' :: rest))))) = [' '] ++
            (printJson dd v ++ (',' :: '\n' :: (printFields dd (kv2 :: kvs'') ++
              '\n' :: (jsonInd d ++ '\x7d' :: rest)))) from rfl]
          rw [hP dd v [' '] (',' :: '\n' :: (printFields dd (kv2 :: kvs'') ++
            '\n' :: (jsonInd d ++ '\x7d' :: rest))) wsPre_space hlenv
            (numStopOk_of_head rfl)]
          simp only []
          rw [skipWs_cons_not (by decide)]
          rw [headIs_cons_self ',']
          simp only [if_true, List.tail_cons]
          rw [show ('\n' :: (printFields dd (kv2 :: kvs'') ++
            '\n' :: (jsonInd d ++ '\x7d' :: rest))) = ['\n'] ++
            (printFields dd (kv2 :: kvs'') ++
              '\n' :: (jsonInd d ++ '\x7d' :: rest)) from rfl]
          rw [ihR d dd (kv2 :: kvs'') ['\n'] rest wsPre_newline (by simp) hlen2]

theorem loads_dumps (r : Json) : loads (dumps r) = some r := by
  have h := (parse_print_all ((printJson 0 r).length + 1)).1 0 r [] []
    wsPre_nil (by omega) (numStopOk_of_head rfl)
  simp only [List.nil_append, List.append_nil] at h
  unfold loads
  rw [show (dumps r).data = printJson 0 r from rfl]
  rw [h]
  simp [skipWs]

/-- C3: rendering any decoded Response in json mode emits exactly
`json.dumps(response, indent=2)` for every renderer, with no truncation,
and `json.loads` of that text reproduces the original value structurally,
field order included (object fields are an ordered list in the embedding,
so equality preserves the original key order). -/
theorem c3_json_roundtrip (r : Json) :
    display_search_results "json" r = some [dumps r] ∧
    display_extract_results "json" r = some [dumps r] ∧
    display_crawl_results "json" r = some [dumps r] ∧
    display_map_results "json" r = some [dumps r] ∧
    display_usage "json" r = some [dumps r] ∧
    loads (dumps r) = some r :=
  ⟨rfl, rfl, rfl, rfl, rfl, loads_dumps r⟩
